import Mathlib

/-!
Verification of the repurpose-api content pipeline.

Shallow embedding of the Python sources:
  - `repurpose.py` (idea synthesis, artifact synthesis with repair loop,
    diff-based editing, video processing flow),
  - `core/services/content_service.py` (rate limiter, generation client),
  - `core/services/brain_service.py` (relevance scoring, sessions),
  - `core/services/brain_content_generator.py` (vision-mode generation).

Backend calls are modelled by a scripted oracle: a list of responses
consumed in order, as a deterministic fake of the generative backend.
-/

/-! ## Python string primitives -/

/-- Whitespace characters recognised by Python `str.strip` / `str.split`
(ASCII subset: space, tab, newline, carriage return, vertical tab, form feed). -/
def isPySpace (c : Char) : Bool :=
  c.toNat = 32 || c.toNat = 9 || c.toNat = 10 || c.toNat = 13 || c.toNat = 11 || c.toNat = 12

/-- Core of `str.strip()` on character lists. -/
def stripChars (l : List Char) : List Char :=
  ((l.dropWhile isPySpace).reverse.dropWhile isPySpace).reverse

/-- Python `str.strip()` with no arguments: remove leading and trailing whitespace. -/
def pyStrip (s : String) : String :=
  String.mk (stripChars s.data)

/-- Python `str.lower()` (ASCII case folding). -/
def pyLower (s : String) : String :=
  String.mk (s.data.map Char.toLower)

/-- Python `needle in haystack` substring test. -/
def listInfixOf (needle haystack : List Char) : Bool :=
  haystack.tails.any (fun t => needle.isPrefixOf t)

/-- Python `needle in haystack` substring test. -/
def pyIn (needle haystack : String) : Bool :=
  listInfixOf needle.data haystack.data

/-- Worker for `pySplit`: accumulate the current word (reversed) while
scanning the character list. -/
def pySplitAux : List Char → List Char → List String
  | [], acc => if acc.isEmpty then [] else [String.mk acc.reverse]
  | c :: cs, acc =>
    if isPySpace c then
      if acc.isEmpty then pySplitAux cs [] else String.mk acc.reverse :: pySplitAux cs []
    else pySplitAux cs (c :: acc)

/-- Python `str.split()` with no arguments: split on whitespace runs,
dropping empty fields. -/
def pySplit (s : String) : List String :=
  pySplitAux s.data []

/-- One decimal digit as a character (`0`-`9`). -/
def digitChar10 (d : Nat) : Char := Char.ofNat (48 + d)

/-- Worker for `natDecimal`: peel decimal digits with explicit fuel so that
the definition reduces in the kernel. -/
def natDecimalAux : Nat → Nat → List Char
  | 0, _ => []
  | fuel + 1, n =>
    if n = 0 then [] else natDecimalAux fuel (n / 10) ++ [digitChar10 (n % 10)]

/-- Decimal representation of a natural number, most significant digit first
(empty for 0, matching the padding behaviour of `py03d` below). -/
def natDecimal (n : Nat) : List Char :=
  natDecimalAux n n

/-- Python `f"{n:03d}"`: decimal representation left-padded with zeros to
width 3. -/
def py03d (n : Nat) : String :=
  String.mk (List.replicate (3 - (natDecimal n).length) (digitChar10 0) ++ natDecimal n)

/-- The content id assigned in `generate_specific_content_pieces`:
`f"{video_id}_{i:03d}"`. -/
def formatContentId (owner : String) (i : Nat) : String :=
  owner ++ "_" ++ py03d i

/-! ## Python values and `str()` (for `identify_content_changes`) -/

/-- A fragment of the Python value universe sufficient for artifact dicts:
strings, ints, booleans, `None`, lists and string-keyed dicts. -/
inductive PyVal where
  | str (s : String)
  | int (n : Int)
  | bool (b : Bool)
  | none
  | list (xs : List PyVal)
  | dict (kvs : List (String × PyVal))

/-- A single-quote character (Python repr uses it around strings). -/
def pyQuote : String := String.mk [Char.ofNat 39]

/-- Join strings with `", "` separators, as Python does inside container reprs. -/
def joinComma : List String → String
  | [] => ""
  | [x] => x
  | x :: xs => x ++ ", " ++ joinComma xs

/-- Python `repr()` on the modelled value fragment. -/
def pyRepr : PyVal → String
  | .str s => pyQuote ++ s ++ pyQuote
  | .int n => toString n
  | .bool b => bif b then "True" else "False"
  | .none => "None"
  | .list xs => "[" ++ joinComma (xs.attach.map fun a => pyRepr a.1) ++ "]"
  | .dict kvs =>
      "\x7b" ++
        joinComma (kvs.attach.map fun a => pyQuote ++ a.1.1 ++ pyQuote ++ ": " ++ pyRepr a.1.2) ++
      "\x7d"
decreasing_by
  · have h := List.sizeOf_lt_of_mem a.2
    have h2 : sizeOf (PyVal.list xs) = 1 + sizeOf xs := by
      simp [PyVal.list.sizeOf_spec]
    omega
  · have h := List.sizeOf_lt_of_mem a.2
    have h2 : sizeOf (PyVal.dict kvs) = 1 + sizeOf kvs := by
      simp [PyVal.dict.sizeOf_spec]
    have h3 : sizeOf a.1.2 ≤ sizeOf a.1 := by
      rcases a with ⟨⟨x, y⟩, hm⟩
      simp
      try omega
    omega

/-- Python `str()`: identity on strings, `repr` elsewhere (on this fragment). -/
def pyStr : PyVal → String
  | .str s => s
  | v => pyRepr v

/-! ## `identify_content_changes` (repurpose.py lines 402-426) -/

/-- Lookup of a key in a dict modelled as an association list
(Python dicts have unique keys; lookup returns the first binding). -/
def lookupKey (kvs : List (String × PyVal)) (k : String) : Option PyVal :=
  (kvs.find? (fun kv => kv.1 = k)).map (·.2)

/-- Keys and values of a slide dict; non-dict values have none
(in Python a non-dict slide element would raise at `orig_slide.keys()`,
which is outside the artifact domain). -/
def pyDictItems : PyVal → List (String × PyVal)
  | .dict kvs => kvs
  | _ => []

/-- The inner slide-by-slide comparison of `identify_content_changes`:
for matching-index slides, report every sub-field whose `str()` differs. -/
def slidePairChanges (idx : Nat) (origSlide editSlide : PyVal) : List String :=
  (pyDictItems origSlide).filterMap fun kv =>
    match lookupKey (pyDictItems editSlide) kv.1 with
    | Option.none => Option.none
    | Option.some ev =>
      if pyStr kv.2 = pyStr ev then Option.none
      else Option.some ("Slide " ++ toString (idx + 1) ++ " " ++ kv.1 ++ " changed")

/-- Changes contributed by one key of the original dict. -/
def fieldChanges (edited : List (String × PyVal)) (k : String) (ov : PyVal) : List String :=
  match lookupKey edited k with
  | Option.none => []
  | Option.some ev =>
    if pyStr ov = pyStr ev then []
    else
      if k = "slides" then
        match ov, ev with
        | .list os, .list es =>
          if os.length ≠ es.length then
            ["Number of slides changed from " ++ toString os.length ++ " to " ++
              toString es.length]
          else
            ((os.zip es).enum.map fun p => slidePairChanges p.1 p.2.1 p.2.2).flatten
        | _, _ => [pyQuote ++ k ++ pyQuote ++ " changed"]
      else [pyQuote ++ k ++ pyQuote ++ " changed"]

/-- Model of `identify_content_changes(original, edited)`: compare every top-level
field by `str()` equality, with special handling for `slides`; report
fields present only in `edited` as additions; return
`["No changes detected"]` when nothing differs. -/
def identifyContentChanges (original edited : List (String × PyVal)) : List String :=
  let changes :=
    (original.map fun kv => fieldChanges edited kv.1 kv.2).flatten ++
    (edited.filterMap fun kv =>
      if (lookupKey original kv.1).isNone then
        Option.some ("Added new field " ++ pyQuote ++ kv.1 ++ pyQuote)
      else Option.none)
  if changes.isEmpty then ["No changes detected"] else changes

/-! ## Pydantic data model of repurpose.py (lines 56-103)

A backend JSON response for one content piece is modelled as a record of
optional fields covering the union of the three schemas (`Reel`,
`ImageCarousel`, `Tweet`); a missing key is `none`. Validation mirrors the
pydantic models: required fields must be present, optional fields with a
`None` default are checked only when present, `max_length` bounds count
characters, and a carousel needs at least 4 slides. -/

structure RawSlide where
  slide_number : Option Int := none
  step_number : Option Int := none
  step_heading : Option String := none
  text : Option String := none
deriving Repr, DecidableEq

structure RawContent where
  content_id : Option String := none
  content_type : Option String := none
  title : Option String := none
  caption : Option String := none
  hook : Option String := none
  script_body : Option String := none
  visual_suggestions : Option String := none
  slides : Option (List RawSlide) := none
  tweet_text : Option String := none
  thread_continuation : Option (List String) := none
  hashtags : Option (List String) := none
deriving Repr, DecidableEq

/-- A required string field with a `max_length` bound. -/
def reqMaxLen (o : Option String) (n : Nat) : Bool :=
  match o with
  | some s => s.length ≤ n
  | none => false

/-- An optional (`Field(None, max_length=n)`) string field: validated only
when present. -/
def optMaxLen (o : Option String) (n : Nat) : Bool :=
  match o with
  | some s => s.length ≤ n
  | none => true

/-- Validation of `CarouselSlide`: `slide_number`/`step_number` required ints,
`step_heading` required with max 100, `text` optional with max 300. -/
def validSlide (s : RawSlide) : Bool :=
  s.slide_number.isSome && s.step_number.isSome &&
  reqMaxLen s.step_heading 100 && optMaxLen s.text 300

/-- Validation of `Reel`. -/
def validateReel (c : RawContent) : Bool :=
  c.content_id.isSome && reqMaxLen c.title 100 && optMaxLen c.caption 300 &&
  c.hook.isSome && c.script_body.isSome

/-- Validation of `ImageCarousel` (`slides` required, `min_length=4`). -/
def validateCarousel (c : RawContent) : Bool :=
  c.content_id.isSome && reqMaxLen c.title 100 && optMaxLen c.caption 300 &&
  (match c.slides with
   | some sl => decide (4 ≤ sl.length) && sl.all validSlide
   | none => false)

/-- Validation of `Tweet` (`tweet_text` required, max 280). -/
def validateTweet (c : RawContent) : Bool :=
  c.content_id.isSome && reqMaxLen c.title 100 && reqMaxLen c.tweet_text 280

/-- The three recognised content-type tags. -/
def knownType (ct : String) : Bool :=
  ct = "reel" || ct = "image_carousel" || ct = "tweet"

/-- Validation of a raw piece against the schema selected by `ct`
(the `Reel(**raw)` / `ImageCarousel(**raw)` / `Tweet(**raw)` constructor
calls in `generate_specific_content_pieces`). -/
def validateAs (ct : String) (c : RawContent) : Bool :=
  if ct = "reel" then validateReel c
  else if ct = "image_carousel" then validateCarousel c
  else if ct = "tweet" then validateTweet c
  else false

/-- Assignment `raw_content['content_id'] = cid`. -/
def setContentId (c : RawContent) (cid : String) : RawContent :=
  { c with content_id := some cid }

/-! ## The backend oracle -/

/-- A scripted backend: each `generate_content` call consumes the next
response (`none` models transport/parse failure, i.e. the client
returned `None`). An exhausted script also responds `none`. -/
def Oracle : Type := List (Option RawContent)

def takeResp (o : Oracle) : Option RawContent × Oracle :=
  match o with
  | [] => (none, [])
  | r :: rest => (r, rest)

/-! ## `fix_validation_errors` (repurpose.py lines 428-492) -/

/-- The repair loop of `fix_validation_errors`: up to `attempts` re-prompts
(default 2). Each attempt pops one backend response; a failed generation,
an unknown/missing `content_type`, or a response that still fails
validation consumes the attempt and continues; the first response that
validates (after the original `content_id` is copied onto it) is returned
and the loop stops. `none` is returned when the cap is reached. -/
def fixValidationErrors (origId : Option String) : Nat → Oracle → Option RawContent × Oracle
  | 0, oracle => (none, oracle)
  | Nat.succ k, oracle =>
    let (resp, rest) := takeResp oracle
    match resp with
    | none => fixValidationErrors origId k rest
    | some f =>
      let f := { f with content_id := origId }
      match f.content_type with
      | none => fixValidationErrors origId k rest
      | some ct =>
        if knownType ct then
          if validateAs ct f then (some f, rest)
          else fixValidationErrors origId k rest
        else fixValidationErrors origId k rest

/-! ## `generate_specific_content_pieces` (repurpose.py lines 494-656) -/

/-- A `ContentIdea` after validation (all required fields present). The loop
of `generate_specific_content_pieces` uses ideas only to build prompts, so
only the list positions drive control flow. -/
structure ContentIdeaR where
  suggested_content_type : String
  suggested_title : String
  relevant_transcript_snippet : String
deriving Repr, DecidableEq

/-- The body of the per-idea loop: one generation call, `content_id`
assignment, type dispatch, validation, and on failure the repair loop
followed by re-validation of the repaired object. Returns the accepted
piece (if any) and the remaining oracle. -/
def processIdea (cid : String) (oracle : Oracle) : Option RawContent × Oracle :=
  let (resp, rest) := takeResp oracle
  match resp with
  | none => (none, rest)
  | some raw =>
    let raw := setContentId raw cid
    match raw.content_type with
    | none => (none, rest)
    | some ct =>
      if knownType ct then
        if validateAs ct raw then (some raw, rest)
        else
          let (fixedRes, rest2) := fixValidationErrors raw.content_id 2 rest
          match fixedRes with
          | none => (none, rest2)
          | some fixed =>
            match fixed.content_type with
            | none => (none, rest2)
            | some ct2 =>
              if knownType ct2 then
                if validateAs ct2 fixed then (some fixed, rest2) else (none, rest2)
              else (none, rest2)
      else (none, rest)

/-- The enumeration loop (`for i, idea in enumerate(ideas, start=1)`),
starting at position `i`; returns the accepted pieces in order together
with the remaining oracle. -/
def genPiecesAux (owner : String) (i : Nat) :
    List ContentIdeaR → Oracle → List RawContent × Oracle
  | [], oracle => ([], oracle)
  | _ :: rest, oracle =>
    let cid := formatContentId owner i
    let (res, oracle2) := processIdea cid oracle
    match res with
    | some p =>
      let (ps, oracle3) := genPiecesAux owner (i + 1) rest oracle2
      (p :: ps, oracle3)
    | none => genPiecesAux owner (i + 1) rest oracle2

/-- Model of `generate_specific_content_pieces(ideas, ...)` with a scripted backend:
the list of accepted pieces, order preserved from `ideas`. -/
def generateSpecificContentPieces (owner : String) (ideas : List ContentIdeaR)
    (oracle : Oracle) : List RawContent :=
  (genPiecesAux owner 1 ideas oracle).1




/-! ## Idea synthesis (repurpose.py lines 267-326) and the per-video flow
of `process_videos` (lines 742-770) -/

/-- A raw idea element of the backend response, before pydantic
validation. -/
structure RawIdea where
  suggested_content_type : Option String := none
  suggested_title : Option String := none
  relevant_transcript_snippet : Option String := none
deriving Repr, DecidableEq

/-- Validation of `ContentIdea`: `suggested_content_type` must be one
of the three literals, `suggested_title` required with max 100,
`relevant_transcript_snippet` required. -/
def validIdea (r : RawIdea) : Bool :=
  (match r.suggested_content_type with
   | some t => knownType t
   | none => false) &&
  reqMaxLen r.suggested_title 100 && r.relevant_transcript_snippet.isSome

/-- Extraction of a validated idea (defaults are never used on validated
input). -/
def toContentIdeaR (r : RawIdea) : ContentIdeaR :=
  { suggested_content_type := r.suggested_content_type.getD ""
  , suggested_title := r.suggested_title.getD ""
  , relevant_transcript_snippet := r.relevant_transcript_snippet.getD "" }

/-- The value found under the `ideas` key of the parsed idea response. -/
inductive IdeasField where
  | missing
  | notList
  | list (xs : List RawIdea)
deriving Repr, DecidableEq

/-- The parsed JSON object returned by the backend for idea generation:
the `ideas` field plus the number of other keys (which only matters for
Python dict truthiness). -/
structure IdeasDict where
  ideas : IdeasField
  otherKeys : Nat := 0
deriving Repr, DecidableEq

/-- Python truthiness of the response dict (`if raw_response and ...`). -/
def ideasDictTruthy (d : IdeasDict) : Bool :=
  (match d.ideas with
   | IdeasField.missing => false
   | _ => true) || d.otherKeys ≠ 0

/-- Model of `generate_content_ideas(transcript, ...)`: builds a prompt, makes one
backend call, and returns the value under `ideas` when the response is a
truthy dict holding a list there, else `None`. The second component counts
backend calls: the function performs exactly one, with no guard on the
transcript length. -/
def generateContentIdeas (transcript : String) (resp : Option IdeasDict) :
    Option (List RawIdea) × Nat :=
  (match resp with
   | some d =>
     if ideasDictTruthy d then
       match d.ideas with
       | IdeasField.list xs => some xs
       | _ => none
     else none
   | none => none
  , 1)

/-- The idea-validation stage of `process_videos`:
`GeneratedIdeas(ideas=raw_ideas)` validates the whole batch inside one
`try`; any failing element raises `ValidationError`, caught by skipping
the video. -/
def validateIdeasBatch (rs : List RawIdea) : Option (List ContentIdeaR) :=
  if rs.all validIdea then some (rs.map toContentIdeaR) else none

/-- The per-video pipeline of `process_videos`: skip when the transcript is
missing, empty or shorter than 50 characters (before any backend call),
otherwise generate ideas, validate the batch, and synthesize artifacts.
The `Nat` component counts backend calls. -/
def processOneVideo (owner : String) (transcript : Option String)
    (ideasResp : Option IdeasDict) (oracle : Oracle) :
    Option (List RawContent) × Nat :=
  match transcript with
  | none => (none, 0)
  | some t =>
    if t.length < 50 then (none, 0)
    else
      match generateContentIdeas t ideasResp with
      | (none, c) => (none, c)
      | (some raws, c) =>
        match validateIdeasBatch raws with
        | none => (none, c)
        | some ideas =>
          let res := genPiecesAux owner 1 ideas oracle
          (some res.1, c + (oracle.length - res.2.length))

/-- A first response that enters the repair path: present, bearing a known
`content_type`, but failing schema validation once the content id is
assigned. -/
def firstAttemptBad (cid : String) (r : RawContent) : Bool :=
  match r.content_type with
  | some ct => knownType ct && !(validateAs ct (setContentId r cid))
  | none => false

/-- A repair response the loop accepts: present, known `content_type`,
and valid once the original content id is copied onto it. -/
def repairAccepts (cid : String) (f : RawContent) : Bool :=
  match f.content_type with
  | some ct => knownType ct && validateAs ct (setContentId f cid)
  | none => false


/-! ## BrainService relevance scoring (brain_service.py lines 263-309) -/

/-- A Brain source row (the fields `_calculate_relevance_score` reads,
plus id/use bookkeeping used by the session layer). -/
structure BrainSourceR where
  source_id : String := ""
  title : String := ""
  content : String := ""
  topics : Option (List String) := none
  tags : Option (List String) := none
  use_count : Nat := 0
  last_used_at : Option Nat := none
deriving Repr, DecidableEq

/-- Overlap `len(query_words & field_words) / max(len(query_words), 1)`
(Python sets modelled as `Finset String`; floats as `ℚ`). -/
def tokenOverlap (qw fieldWords : Finset String) : ℚ :=
  ((qw ∩ fieldWords).card : ℚ) / (max qw.card 1 : ℚ)

/-- Python `set(s.split())`. -/
def wordSet (s : String) : Finset String := (pySplit s).toFinset

/-- Python `any(w in topic for w in query_words)`. -/
def anyQueryWordIn (queryWords : Finset String) (s : String) : Bool :=
  decide (∃ w ∈ queryWords, pyIn w s = true)

/-- Model of `_calculate_relevance_score(source, query_lower, query_words)`, the
float arithmetic carried out in `ℚ` (0.4/0.3/0.2/0.1 are exact decimal
fractions here). -/
def calculateRelevanceScore (src : BrainSourceR) (queryLower : String)
    (queryWords : Finset String) : ℚ :=
  let titleLower := pyLower src.title
  let s1 : ℚ :=
    if pyIn queryLower titleLower then 0.4
    else 0.3 * tokenOverlap queryWords (wordSet titleLower)
  let contentLower := pyLower src.content
  let s2 : ℚ :=
    if pyIn queryLower contentLower then 0.3
    else 0.2 * tokenOverlap queryWords (wordSet contentLower)
  let s3 : ℚ :=
    match src.topics with
    | some topics =>
      if topics.any (fun tp => anyQueryWordIn queryWords (pyLower tp)) then 0.1 else 0
    | none => 0
  let s4 : ℚ :=
    match src.tags with
    | some tags =>
      if tags.any (fun tg => anyQueryWordIn queryWords (pyLower tg)) then 0.1 else 0
    | none => 0
  min (s1 + s2 + s3 + s4) 1

/-- The scoring formula as the specification words it:
`0.4·titleExact + 0.3·titleTokenOverlap(if not exact) + 0.3·contentExact +
0.2·contentTokenOverlap(if not exact) + 0.1·topicHit + 0.1·tagHit`, capped
at 1.0, where an exact match means the full lowercased query is a
substring of the field and token overlap is `|q ∩ f| / |q|`. -/
def specRelevanceScore (src : BrainSourceR) (queryLower : String)
    (queryWords : Finset String) : ℚ :=
  let titleExact : ℚ := if pyIn queryLower (pyLower src.title) then 1 else 0
  let contentExact : ℚ := if pyIn queryLower (pyLower src.content) then 1 else 0
  let titleOv := tokenOverlap queryWords (wordSet (pyLower src.title))
  let contentOv := tokenOverlap queryWords (wordSet (pyLower src.content))
  let topicHit : ℚ :=
    match src.topics with
    | some topics =>
      if topics.any (fun tp => anyQueryWordIn queryWords (pyLower tp)) then 1 else 0
    | none => 0
  let tagHit : ℚ :=
    match src.tags with
    | some tags =>
      if tags.any (fun tg => anyQueryWordIn queryWords (pyLower tg)) then 1 else 0
    | none => 0
  min (0.4 * titleExact + (1 - titleExact) * 0.3 * titleOv
       + 0.3 * contentExact + (1 - contentExact) * 0.2 * contentOv
       + 0.1 * topicHit + 0.1 * tagHit) 1


/-! ## GenerationClient response handling
(content_service.py lines 53-72, repurpose.py lines 151-165) -/

/-- JSON values as `json.loads` returns them, restricted to the fragment
the pipeline uses: no floats, so a numeric literal with a fraction or
exponent makes this parser fail where Python would produce a float. -/
inductive JVal where
  | null
  | bool (b : Bool)
  | num (n : Int)
  | str (s : String)
  | arr (xs : List JVal)
  | obj (kvs : List (String × JVal))

def jsonQuote : Char := Char.ofNat 34
def jsonBackslash : Char := Char.ofNat 92
def jsonLBrace : Char := Char.ofNat 123
def jsonRBrace : Char := Char.ofNat 125
def jsonLBrack : Char := Char.ofNat 91
def jsonRBrack : Char := Char.ofNat 93
def jsonComma : Char := Char.ofNat 44
def jsonColon : Char := Char.ofNat 58
def jsonMinus : Char := Char.ofNat 45
def backtick : Char := Char.ofNat 96

/-- JSON whitespace (space, tab, newline, carriage return). -/
def isJsonWs (c : Char) : Bool :=
  c.toNat = 32 || c.toNat = 9 || c.toNat = 10 || c.toNat = 13

def skipWs (cs : List Char) : List Char := cs.dropWhile isJsonWs

def isJsonDigit (c : Char) : Bool := 48 ≤ c.toNat && c.toNat ≤ 57

/-- Body of a JSON string after the opening quote, strict mode: raw control
characters are rejected; the escapes `\" \\ \/ \n \t \r` are honoured and
any other escape fails the parse. -/
def parseStringBody : Nat → List Char → List Char → Option (String × List Char)
  | 0, _, _ => none
  | _ + 1, [], _ => none
  | fuel + 1, c :: cs, acc =>
    if c = jsonQuote then some (String.mk acc.reverse, cs)
    else if c = jsonBackslash then
      match cs with
      | [] => none
      | e :: cs2 =>
        if e = jsonQuote then parseStringBody fuel cs2 (jsonQuote :: acc)
        else if e = jsonBackslash then parseStringBody fuel cs2 (jsonBackslash :: acc)
        else if e = Char.ofNat 47 then parseStringBody fuel cs2 (Char.ofNat 47 :: acc)
        else if e = Char.ofNat 110 then parseStringBody fuel cs2 (Char.ofNat 10 :: acc)
        else if e = Char.ofNat 116 then parseStringBody fuel cs2 (Char.ofNat 9 :: acc)
        else if e = Char.ofNat 114 then parseStringBody fuel cs2 (Char.ofNat 13 :: acc)
        else none
    else if c.toNat < 32 then none
    else parseStringBody fuel cs (c :: acc)

/-- A JSON integer literal: optional minus, digit run with no redundant
leading zero, rejecting a following `.`/`e`/`E` (floats unsupported). -/
def parseNumber (cs : List Char) : Option (Int × List Char) :=
  let (neg, cs1) :=
    match cs with
    | c :: rest => if c = jsonMinus then (true, rest) else (false, cs)
    | [] => (false, cs)
  let ds := cs1.takeWhile isJsonDigit
  let rest := cs1.dropWhile isJsonDigit
  if ds.isEmpty then none
  else if 1 < ds.length && ds.head? = some (Char.ofNat 48) then none
  else
    match rest with
    | c :: _ =>
      if c = Char.ofNat 46 || c = Char.ofNat 101 || c = Char.ofNat 69 then none
      else
        let v : Int := (ds.foldl (fun a c => 10 * a + (c.toNat - 48)) 0 : Nat)
        some (if neg then -v else v, rest)
    | [] =>
      let v : Int := (ds.foldl (fun a c => 10 * a + (c.toNat - 48)) 0 : Nat)
      some (if neg then -v else v, rest)

mutual

/-- Recursive-descent JSON value parser (fuel-bounded; with enough fuel it
agrees with `json.loads` on the supported fragment). -/
def parseJsonVal : Nat → List Char → Option (JVal × List Char)
  | 0, _ => none
  | fuel + 1, cs =>
    match skipWs cs with
    | [] => none
    | c :: rest =>
      if c = jsonQuote then
        match parseStringBody (rest.length + 1) rest [] with
        | some (s, rest2) => some (JVal.str s, rest2)
        | none => none
      else if c = jsonLBrack then
        match skipWs rest with
        | d :: rest2 =>
          if d = jsonRBrack then some (JVal.arr [], rest2)
          else
            match parseJsonArrItems fuel rest with
            | some (xs, rest3) => some (JVal.arr xs, rest3)
            | none => none
        | [] => none
      else if c = jsonLBrace then
        match skipWs rest with
        | d :: rest2 =>
          if d = jsonRBrace then some (JVal.obj [], rest2)
          else
            match parseJsonObjItems fuel rest with
            | some (kvs, rest3) => some (JVal.obj kvs, rest3)
            | none => none
        | [] => none
      else if c = Char.ofNat 116 then
        if ("rue".data).isPrefixOf rest then some (JVal.bool true, rest.drop 3)
        else none
      else if c = Char.ofNat 102 then
        if ("alse".data).isPrefixOf rest then some (JVal.bool false, rest.drop 4)
        else none
      else if c = Char.ofNat 110 then
        if ("ull".data).isPrefixOf rest then some (JVal.null, rest.drop 3)
        else none
      else
        match parseNumber (c :: rest) with
        | some (n, rest2) => some (JVal.num n, rest2)
        | none => none

/-- Comma-separated array items up to the closing bracket. -/
def parseJsonArrItems : Nat → List Char → Option (List JVal × List Char)
  | 0, _ => none
  | fuel + 1, cs =>
    match parseJsonVal fuel cs with
    | none => none
    | some (v, rest) =>
      match skipWs rest with
      | c :: rest2 =>
        if c = jsonComma then
          match parseJsonArrItems fuel rest2 with
          | some (xs, rest3) => some (v :: xs, rest3)
          | none => none
        else if c = jsonRBrack then some ([v], rest2)
        else none
      | [] => none

/-- Comma-separated `"key": value` members up to the closing brace. -/
def parseJsonObjItems : Nat → List Char → Option (List (String × JVal) × List Char)
  | 0, _ => none
  | fuel + 1, cs =>
    match skipWs cs with
    | c :: rest =>
      if c = jsonQuote then
        match parseStringBody (rest.length + 1) rest [] with
        | some (k, rest2) =>
          match skipWs rest2 with
          | d :: rest3 =>
            if d = jsonColon then
              match parseJsonVal fuel rest3 with
              | some (v, rest4) =>
                match skipWs rest4 with
                | e :: rest5 =>
                  if e = jsonComma then
                    match parseJsonObjItems fuel rest5 with
                    | some (kvs, rest6) => some ((k, v) :: kvs, rest6)
                    | none => none
                  else if e = jsonRBrace then some ([(k, v)], rest5)
                  else none
                | [] => none
              | none => none
            else none
          | [] => none
        | none => none
      else none
    | [] => none

end

/-- Model of `json.loads(s)`: parse one value and require only whitespace after it
(Python raises `Extra data` otherwise, and any raise yields `None` at the
call sites, which catch all exceptions). -/
def pyJsonLoads (s : String) : Option JVal :=
  match parseJsonVal (2 * s.length + 4) s.data with
  | some (v, rest) => if (skipWs rest).isEmpty then some v else none
  | none => none

/-- Python `s.startswith(pre)`. -/
def pyStartsWith (pre s : String) : Bool := pre.data.isPrefixOf s.data

/-- Python `s[7:-3]`. -/
def pySlice7m3 (s : String) : String :=
  String.mk ((s.data.drop 7).take (s.length - 10))

/-- Model of `ContentGenerator.generate_content` / `call_gemini_api` response
handling: a falsy (absent or empty) message yields `None`; otherwise the
content is stripped, a wrapper starting with ` ```json ` is removed by
taking characters `7:-3` and stripping again, and the remainder is parsed
as JSON, any parse error yielding `None`. -/
def generateContentModel (content : Option String) : Option JVal :=
  match content with
  | none => none
  | some c =>
    if c = "" then none
    else
      let s := pyStrip c
      let s2 := if pyStartsWith "```json" s then pyStrip (pySlice7m3 s) else s
      pyJsonLoads s2


/-! ## GeminiRateLimiter (content_service.py lines 13-45) -/

/-- The limiter's mutable state: FIFO timestamp queue (oldest first),
daily counter, and the day stamp of the last daily reset. -/
structure RateState where
  request_times : List Int
  daily_count : Nat
  last_reset_day : Int
deriving Repr, DecidableEq

/-- One lock acquisition inside `wait_for_capacity`: the wall clock `now`
(seconds, modelled as `Int`) and calendar day `day` (`tm_yday`) it
observes. -/
structure RateEvent where
  now : Int
  day : Int
deriving Repr, DecidableEq

/-- Queue pruning: pop timestamps strictly older than `now - 60`. -/
def pruneOld (now : Int) (q : List Int) : List Int :=
  q.dropWhile (fun t => decide (t < now - 60))

/-- One body of the `while True` loop under the lock: lazy daily reset,
prune, then grant iff both limits hold. Returns the new state, whether
capacity was granted, and whether a daily reset happened. A failed check
leaves the state merely pruned/reset — the caller sleeps 100ms and
retries; nothing is thrown. -/
def tryAcquire (rpm qpd : Nat) (s : RateState) (e : RateEvent) :
    RateState × Bool × Bool :=
  let reset : Bool := e.day ≠ s.last_reset_day
  let s1 := if reset then { s with daily_count := 0, last_reset_day := e.day } else s
  let q := pruneOld e.now s1.request_times
  if s1.daily_count < qpd ∧ q.length < rpm then
    ({ s1 with request_times := q ++ [e.now], daily_count := s1.daily_count + 1 },
      true, reset)
  else ({ s1 with request_times := q }, false, reset)

/-- Run a sequence of acquisition attempts; returns the final state, the
granted attempts in order, and the number of daily resets performed. -/
def runRate (rpm qpd : Nat) : RateState → List RateEvent → RateState × List RateEvent × Nat
  | s, [] => (s, [], 0)
  | s, e :: es =>
    let r1 := tryAcquire rpm qpd s e
    let rrest := runRate rpm qpd r1.1 es
    (rrest.1, (if r1.2.1 then [e] else []) ++ rrest.2.1,
      (if r1.2.2 then 1 else 0) + rrest.2.2)

/-- The limiter as constructed: empty queue, zero daily count,
`last_reset_day` = the day of construction. -/
def initRateState (day0 : Int) : RateState := ⟨[], 0, day0⟩

/-- Number of positions at which the observed day differs from the
previously observed one (starting from `prev`). -/
def countDayChanges : Int → List Int → Nat
  | _, [] => 0
  | prev, d :: ds => (if d ≠ prev then 1 else 0) + countDayChanges d ds


/-! ## Brain sessions and vision-mode generation
(brain_service.py lines 224-331, 359-424; brain_content_generator.py
lines 35-125) -/

/-- One `BrainSession` row (the fields the vision flow touches). -/
structure BrainSessionR where
  session_id : String
  mode : String
  status : String
  matched_source_ids : Option (List String) := none
  generated_content : Option JVal := none
  error_message : Option String := none
  completed_at : Option Nat := none

/-- The store: sources in listing order (most recently updated first, the
order `get_sources` returns) and sessions in creation order. -/
structure BrainDB where
  sources : List BrainSourceR
  sessions : List BrainSessionR

/-- Position of the first occurrence of `needle` in `hay`
(Python `str.find`, as an `Option` instead of `-1`). -/
def listFindInfix2 (needle hay : List Char) : Option Nat :=
  hay.tails.findIdx? (fun t => needle.isPrefixOf t)

/-- Model of `_get_relevant_snippet(content, query, snippet_length=200)`: a window
centred on the first case-insensitive occurrence of the query, with
ellipses at truncated boundaries; the leading characters if absent. -/
def getRelevantSnippet (content query : String) (snippetLength : Nat) : String :=
  let contentLower := pyLower content
  match listFindInfix2 query.data contentLower.data with
  | none =>
    if snippetLength < content.length then
      String.mk (content.data.take snippetLength) ++ "..."
    else content
  | some pos =>
    let start := pos - snippetLength / 2
    let stop := min content.length (start + snippetLength)
    let snippet := String.mk ((content.data.drop start).take (stop - start))
    let snippet := if 0 < start then "..." ++ snippet else snippet
    if stop < content.length then snippet ++ "..." else snippet

/-- Stable-enough insertion into a score-descending list (Python
`list.sort(key=..., reverse=True)` on the search results). -/
def insertScoreDesc (x : BrainSourceR × ℚ × String) :
    List (BrainSourceR × ℚ × String) → List (BrainSourceR × ℚ × String)
  | [] => [x]
  | y :: ys => if y.2.1 < x.2.1 then x :: y :: ys else y :: insertScoreDesc x ys

def sortScoreDesc : List (BrainSourceR × ℚ × String) → List (BrainSourceR × ℚ × String)
  | [] => []
  | x :: xs => insertScoreDesc x (sortScoreDesc xs)

/-- Model of `search_sources(query, ..., limit, min_score)` without structural
filters: take `limit*3` candidates in listing order, score them, keep
those at or above `min_score`, sort by score descending, truncate. -/
def searchSources (sources : List BrainSourceR) (query : String) (limit : Nat)
    (minScore : ℚ) : List (BrainSourceR × ℚ × String) :=
  let queryLower := pyLower query
  let queryWords := wordSet queryLower
  let results := (sources.take (limit * 3)).filterMap (fun src =>
    let score := calculateRelevanceScore src queryLower queryWords
    if minScore ≤ score then
      some (src, score, getRelevantSnippet src.content queryLower 200)
    else none)
  (sortScoreDesc results).take limit

/-- Model of `update_session_status`: set the status (and the optional result
fields when given) on the matching session; a terminal status stamps
`completed_at` with the current time `now`. -/
def updateSessionStatus (db : BrainDB) (sid : String) (status : String)
    (matched : Option (List String)) (generated : Option JVal)
    (err : Option String) (now : Nat) : BrainDB :=
  { db with sessions := db.sessions.map (fun sess =>
      if sess.session_id = sid then
        { sess with
          status := status
          matched_source_ids := matched.or sess.matched_source_ids
          generated_content := generated.or sess.generated_content
          error_message := err.or sess.error_message
          completed_at := if status = "completed" || status = "failed" then some now
            else sess.completed_at }
      else sess) }

def pyTruthyJVal : JVal → Bool
  | JVal.null => false
  | JVal.bool b => b
  | JVal.num n => decide (n ≠ 0)
  | JVal.str s => !s.isEmpty
  | JVal.arr xs => !xs.isEmpty
  | JVal.obj kvs => !kvs.isEmpty

def jValContainsKey (v : JVal) (k : String) : Bool :=
  match v with
  | JVal.obj kvs => kvs.any (fun kv => kv.1 = k)
  | _ => false

def jValGet (v : JVal) (k : String) : Option JVal :=
  match v with
  | JVal.obj kvs => (kvs.find? (fun kv => kv.1 = k)).map (·.2)
  | _ => none

/-- Model of `_generate_content_pieces`: one backend call; the value under
`content_pieces` when the parsed response is truthy and holds that key,
else an empty list. -/
def generateContentPieces (resp : Option JVal) : JVal :=
  match resp with
  | some v =>
    if pyTruthyJVal v && jValContainsKey v "content_pieces" then
      (jValGet v "content_pieces").getD JVal.null
    else JVal.arr []
  | none => JVal.arr []

/-- The error a subscript on a SQLAlchemy model instance raises: at
brain_content_generator.py line 75 the matched-sources list comprehension
evaluates `r["source"]["source_id"]`, and `BrainSource` (a plain
declarative model) is not subscriptable, so any non-empty match list
raises `TypeError` before use counts or session results are written. -/
def brainSubscriptError : String :=
  "TypeError: BrainSource object is not subscriptable"

/-- Model of `generate_from_vision(user_vision, ...)` with a scripted backend:
create a pending session; search for relevant sources; with no match,
generate from the vision alone and mark the session completed; with at
least one match, the matched-sources construction raises (see
`brainSubscriptError`), the `except` branch marks the session failed with
the message, and the exception is re-raised (`Except.error`). -/
def generateFromVision (db : BrainDB) (userVision : String)
    (genResp : Option JVal) (now : Nat) (maxSources : Nat) (minScore : ℚ) :
    BrainDB × Except String JVal :=
  let sid := "sess_" ++ toString db.sessions.length
  let db1 : BrainDB :=
    { db with sessions := db.sessions
        ++ [{ session_id := sid, mode := "vision", status := "pending" }] }
  let matched := searchSources db1.sources userVision maxSources minScore
  match matched with
  | [] =>
    let generated := generateContentPieces genResp
    let db2 := updateSessionStatus db1 sid "completed" (some []) (some generated) none now
    (db2, Except.ok generated)
  | _ :: _ =>
    let db2 := updateSessionStatus db1 sid "failed" none none
      (some brainSubscriptError) now
    (db2, Except.error brainSubscriptError)

/-! # Theorems -/

/-! ## C9: diff of an artifact with itself -/

lemma lookupKey_self {kvs : List (String × PyVal)} (hnd : (kvs.map Prod.fst).Nodup)
    {k : String} {v : PyVal} (hm : (k, v) ∈ kvs) : lookupKey kvs k = some v := by
  induction kvs with
  | nil => cases hm
  | cons hd tl ih =>
    rcases List.mem_cons.mp hm with hm1 | hm1
    · simp [lookupKey, List.find?, ← hm1]
    · have hk : k ≠ hd.1 := by
        intro hk
        have : hd.1 ∈ tl.map Prod.fst := by
          refine List.mem_map.mpr ⟨(k, v), hm1, ?_⟩
          simp [hk]
        exact (List.nodup_cons.mp hnd).1 this
      have hnd2 : (tl.map Prod.fst).Nodup := (List.nodup_cons.mp hnd).2
      have := ih hnd2 hm1
      simp only [lookupKey, List.find?] at this ⊢
      have hne : (decide (hd.1 = k)) = false := by
        simp [Ne.symm hk]
      rw [hne]
      exact this

lemma flatten_eq_nil_of_all_nil {α : Type} {L : List (List α)}
    (h : ∀ l ∈ L, l = []) : L.flatten = [] := by
  induction L with
  | nil => rfl
  | cons hd tl ih =>
    have h1 := h hd (by simp)
    have h2 : tl.flatten = [] := ih fun l hl => h l (by simp [hl])
    simp [h1, h2]

/-- C9: for every artifact dict `x` (keys unique, as in any Python dict),
`identify_content_changes(x, x)` returns exactly `["No changes detected"]`. -/
theorem diff_artifact_self_no_changes (x : List (String × PyVal))
    (hnd : (x.map Prod.fst).Nodup) :
    identifyContentChanges x x = ["No changes detected"] := by
  have hfield : ∀ kv ∈ x, fieldChanges x kv.1 kv.2 = [] := by
    intro kv hkv
    have hl : lookupKey x kv.1 = some kv.2 := lookupKey_self hnd (by simpa using hkv)
    simp [fieldChanges, hl]
  have h1 : (x.map fun kv => fieldChanges x kv.1 kv.2).flatten = [] := by
    refine flatten_eq_nil_of_all_nil ?_
    intro l hl
    rcases List.mem_map.mp hl with ⟨kv, hkv, rfl⟩
    exact hfield kv hkv
  have h2 : (x.filterMap fun kv =>
      if (lookupKey x kv.1).isNone then
        Option.some ("Added new field " ++ pyQuote ++ kv.1 ++ pyQuote)
      else Option.none) = [] := by
    refine List.filterMap_eq_nil_iff.mpr ?_
    intro kv hkv
    have hl : lookupKey x kv.1 = some kv.2 := lookupKey_self hnd (by simpa using hkv)
    simp [hl]
  simp only [identifyContentChanges, h1, h2]
  rfl

/-- Witness for C9: a concrete reel artifact diffed against itself. -/
theorem diff_artifact_self_no_changes_witness :
    identifyContentChanges
      [("content_id", PyVal.str "v_001"), ("content_type", PyVal.str "reel"),
       ("title", PyVal.str "T"), ("caption", PyVal.str "C"),
       ("hook", PyVal.str "H"), ("script_body", PyVal.str "S"),
       ("hashtags", PyVal.list [PyVal.str "#ecom"])]
      [("content_id", PyVal.str "v_001"), ("content_type", PyVal.str "reel"),
       ("title", PyVal.str "T"), ("caption", PyVal.str "C"),
       ("hook", PyVal.str "H"), ("script_body", PyVal.str "S"),
       ("hashtags", PyVal.list [PyVal.str "#ecom"])]
      = ["No changes detected"] :=
  diff_artifact_self_no_changes _ (by decide)

/-! ## Injectivity of the `{seq:03d}` id format -/

lemma digitChar10_toNat {d : Nat} (hd : d < 10) : (digitChar10 d).toNat = 48 + d := by
  interval_cases d <;> rfl

lemma natDecimalAux_eq : ∀ (fuel n : Nat), n ≤ fuel →
    natDecimalAux fuel n = ((Nat.digits 10 n).reverse).map digitChar10 := by
  intro fuel
  induction fuel with
  | zero =>
    intro n h
    interval_cases n
    simp [natDecimalAux]
  | succ fuel ih =>
    intro n h
    by_cases hn : n = 0
    · subst hn
      simp [natDecimalAux]
    · have h1 : n / 10 ≤ fuel := by
        have := Nat.div_lt_self (Nat.pos_of_ne_zero hn) (by norm_num : 1 < 10)
        omega
      rw [show natDecimalAux (fuel + 1) n =
            (if n = 0 then [] else natDecimalAux fuel (n / 10) ++ [digitChar10 (n % 10)]) from rfl,
          if_neg hn, ih (n / 10) h1,
          Nat.digits_def' (by norm_num : 1 < 10) (Nat.pos_of_ne_zero hn)]
      simp

lemma natDecimal_eq_digits (n : Nat) :
    natDecimal n = ((Nat.digits 10 n).reverse).map digitChar10 :=
  natDecimalAux_eq n n le_rfl

lemma natDecimal_map_back (k : Nat) :
    (natDecimal k).map (fun c => c.toNat - 48) = (Nat.digits 10 k).reverse := by
  rw [natDecimal_eq_digits]
  rw [List.map_map]
  have h : ∀ d ∈ (Nat.digits 10 k).reverse,
      ((fun c => c.toNat - 48) ∘ digitChar10) d = id d := by
    intro d hd
    have hd10 : d < 10 :=
      Nat.digits_lt_base (by norm_num) (List.mem_reverse.mp hd)
    simp [digitChar10_toNat hd10]
  rw [List.map_congr_left h, List.map_id]

lemma natDecimal_inj {m n : Nat} (h : natDecimal m = natDecimal n) : m = n := by
  have h2 : (Nat.digits 10 m).reverse = (Nat.digits 10 n).reverse := by
    rw [← natDecimal_map_back, ← natDecimal_map_back, h]
  have h3 : Nat.digits 10 m = Nat.digits 10 n := List.reverse_injective h2
  have h4 := congrArg (Nat.ofDigits 10) h3
  simpa [Nat.ofDigits_digits] using h4

lemma natDecimal_head {m : Nat} (hm : m ≠ 0) :
    ∃ d ds, natDecimal m = digitChar10 d :: ds ∧ d ≠ 0 ∧ d < 10 := by
  have hne : Nat.digits 10 m ≠ [] := Nat.digits_ne_nil_iff_ne_zero.mpr hm
  have hrev : (Nat.digits 10 m).reverse ≠ [] := by simpa using hne
  rcases List.exists_cons_of_ne_nil hrev with ⟨d, ds, hds⟩
  refine ⟨d, ds.map digitChar10, ?_, ?_, ?_⟩
  · rw [natDecimal_eq_digits, hds]
    rfl
  · have h1 : (Nat.digits 10 m).getLast? = some d := by
      rw [List.getLast?_eq_head?_reverse, hds]
      rfl
    have h2 := Nat.getLast_digit_ne_zero 10 hm
    have h3 : (Nat.digits 10 m).getLast? = some ((Nat.digits 10 m).getLast hne) :=
      List.getLast?_eq_getLast _ hne
    rw [h3] at h1
    intro hd0
    apply h2
    exact (Option.some_inj.mp h1).trans hd0
  · have hd : d ∈ Nat.digits 10 m := by
      have h5 : d ∈ (Nat.digits 10 m).reverse := by
        rw [hds]
        exact List.mem_cons_self _ _
      exact List.mem_reverse.mp h5
    exact Nat.digits_lt_base (by norm_num) hd

lemma dropWhile_zero_pad (k : Nat) (l : List Char)
    (hl : List.dropWhile (fun c => c = digitChar10 0) l = l) :
    List.dropWhile (fun c => c = digitChar10 0)
      (List.replicate k (digitChar10 0) ++ l) = l := by
  induction k with
  | zero => simpa using hl
  | succ k ih =>
    rw [List.replicate_succ, List.cons_append, List.dropWhile_cons]
    simpa using ih

lemma dropWhile_natDecimal {m : Nat} (hm : m ≠ 0) :
    List.dropWhile (fun c => c = digitChar10 0) (natDecimal m) = natDecimal m := by
  rcases natDecimal_head hm with ⟨d, ds, hds, hd0, hd10⟩
  rw [hds, List.dropWhile_cons]
  have hne : digitChar10 d ≠ digitChar10 0 := by
    intro h
    have h1 := congrArg Char.toNat h
    rw [digitChar10_toNat hd10, digitChar10_toNat (by norm_num)] at h1
    omega
  simp [hne]

lemma py03d_inj {m n : Nat} (hm : m ≠ 0) (hn : n ≠ 0) (h : py03d m = py03d n) :
    m = n := by
  have hd := congrArg String.data h
  simp only [py03d] at hd
  have h1 := dropWhile_zero_pad (3 - (natDecimal m).length) (natDecimal m)
    (dropWhile_natDecimal hm)
  have h2 := dropWhile_zero_pad (3 - (natDecimal n).length) (natDecimal n)
    (dropWhile_natDecimal hn)
  have h3 : natDecimal m = natDecimal n := by
    rw [← h1, ← h2, hd]
  exact natDecimal_inj h3

lemma formatContentId_inj {owner : String} {m n : Nat} (hm : m ≠ 0) (hn : n ≠ 0)
    (h : formatContentId owner m = formatContentId owner n) : m = n := by
  have hd := congrArg String.data h
  simp only [formatContentId, String.data_append] at hd
  have h2 : (py03d m).data = (py03d n).data := List.append_cancel_left hd
  apply py03d_inj hm hn
  have h3 := congrArg String.mk h2
  simpa using h3


/-! ## C2: id contract when every idea succeeds -/

lemma genPiecesAux_nil (owner : String) (i : Nat) (oracle : Oracle) :
    genPiecesAux owner i [] oracle = ([], oracle) := rfl

lemma genPiecesAux_cons_some {owner : String} {i : Nat} {a : ContentIdeaR}
    {rest : List ContentIdeaR} {oracle o2 : Oracle} {p : RawContent}
    (hp : processIdea (formatContentId owner i) oracle = (some p, o2)) :
    genPiecesAux owner i (a :: rest) oracle
      = (p :: (genPiecesAux owner (i + 1) rest o2).1,
          (genPiecesAux owner (i + 1) rest o2).2) := by
  simp only [genPiecesAux]
  rw [hp]

lemma genPiecesAux_cons_none {owner : String} {i : Nat} {a : ContentIdeaR}
    {rest : List ContentIdeaR} {oracle o2 : Oracle}
    (hp : processIdea (formatContentId owner i) oracle = (none, o2)) :
    genPiecesAux owner i (a :: rest) oracle = genPiecesAux owner (i + 1) rest o2 := by
  simp only [genPiecesAux]
  rw [hp]

lemma fixValidationErrors_some_id {origId : Option String} {f : RawContent} :
    ∀ (n : Nat) (oracle : Oracle),
    (fixValidationErrors origId n oracle).1 = some f → f.content_id = origId := by
  intro n
  induction n with
  | zero =>
    intro oracle h
    simp [fixValidationErrors] at h
  | succ k ih =>
    intro oracle h
    rcases oracle with _ | ⟨r, rest⟩
    · exact ih [] (by simpa [fixValidationErrors, takeResp] using h)
    · rcases r with _ | f2
      · exact ih rest (by simpa [fixValidationErrors, takeResp] using h)
      · simp only [fixValidationErrors, takeResp] at h
        split at h
        · exact ih rest h
        · split at h
          · split at h
            · cases Option.some_inj.mp h
              rfl
            · exact ih rest h
          · exact ih rest h

lemma processIdea_some_id {cid : String} {oracle : Oracle} {p : RawContent}
    (h : (processIdea cid oracle).1 = some p) : p.content_id = some cid := by
  rcases oracle with _ | ⟨r, rest⟩
  · simp [processIdea, takeResp] at h
  · rcases r with _ | raw
    · simp [processIdea, takeResp] at h
    · simp only [processIdea, takeResp, setContentId] at h
      repeat' split at h
      all_goals
        first
        | (simp at h
           done)
        | (cases Option.some_inj.mp h
           rfl)
        | (cases Option.some_inj.mp h
           exact fixValidationErrors_some_id 2 rest (by assumption))

lemma genPiecesAux_length_le (owner : String) :
    ∀ (ideas : List ContentIdeaR) (i : Nat) (oracle : Oracle),
    ((genPiecesAux owner i ideas oracle).1).length ≤ ideas.length := by
  intro ideas
  induction ideas with
  | nil =>
    intro i oracle
    simp [genPiecesAux_nil]
  | cons a rest ih =>
    intro i oracle
    rcases hp : processIdea (formatContentId owner i) oracle with ⟨res, o2⟩
    cases res with
    | none =>
      rw [genPiecesAux_cons_none hp]
      exact Nat.le_succ_of_le (ih (i + 1) o2)
    | some p =>
      rw [genPiecesAux_cons_some hp]
      simpa using ih (i + 1) o2

lemma genPiecesAux_full_ids (owner : String) :
    ∀ (ideas : List ContentIdeaR) (i : Nat) (oracle : Oracle),
    ((genPiecesAux owner i ideas oracle).1).length = ideas.length →
    ((genPiecesAux owner i ideas oracle).1).map (·.content_id)
      = (List.range ideas.length).map (fun j => some (formatContentId owner (i + j))) := by
  intro ideas
  induction ideas with
  | nil =>
    intro i oracle _
    simp [genPiecesAux_nil]
  | cons a rest ih =>
    intro i oracle hlen
    rcases hp : processIdea (formatContentId owner i) oracle with ⟨res, o2⟩
    cases res with
    | none =>
      exfalso
      rw [genPiecesAux_cons_none hp] at hlen
      have := genPiecesAux_length_le owner rest (i + 1) o2
      simp only [List.length_cons] at hlen
      omega
    | some p =>
      rw [genPiecesAux_cons_some hp] at hlen ⊢
      simp only [List.length_cons] at hlen
      have hlen2 : ((genPiecesAux owner (i + 1) rest o2).1).length = rest.length := by
        simpa using hlen
      have hid : p.content_id = some (formatContentId owner i) :=
        processIdea_some_id (by rw [hp])
      have ihh := ih (i + 1) o2 hlen2
      simp only [List.map_cons, hid, ihh, List.length_cons,
        List.range_succ_eq_map, List.map_map]
      congr 1
      apply List.map_congr_left
      intro j _
      simp only [Function.comp_apply]
      have hj : i + 1 + j = i + (j + 1) := by omega
      rw [hj]

/-- C2: if artifact synthesis succeeds for all `k` ideas of a batch (the
output has one piece per idea), the returned pieces carry exactly the
content ids `{owner}_001 .. {owner}_{k:03d}`: zero padded, sequential in
idea order, and pairwise distinct. -/
theorem artifact_id_contract (owner : String) (ideas : List ContentIdeaR)
    (oracle : Oracle)
    (hfull : (generateSpecificContentPieces owner ideas oracle).length = ideas.length) :
    (generateSpecificContentPieces owner ideas oracle).map (·.content_id)
      = (List.range ideas.length).map (fun j => some (formatContentId owner (j + 1)))
    ∧ ((generateSpecificContentPieces owner ideas oracle).map (·.content_id)).Nodup := by
  have h := genPiecesAux_full_ids owner ideas 1 oracle hfull
  have heq : (generateSpecificContentPieces owner ideas oracle).map (·.content_id)
      = (List.range ideas.length).map (fun j => some (formatContentId owner (j + 1))) := by
    rw [generateSpecificContentPieces, h]
    apply List.map_congr_left
    intro j _
    rw [Nat.add_comm]
  refine ⟨heq, ?_⟩
  rw [heq]
  refine List.Nodup.map_on ?_ (List.nodup_range _)
  intro x _ y _ hxy
  have h1 : formatContentId owner (x + 1) = formatContentId owner (y + 1) :=
    Option.some_inj.mp hxy
  have h2 := formatContentId_inj (by omega) (by omega) h1
  omega

/-- Witness for C2: two ideas, both first responses valid, ids are
`v_001`, `v_002` and distinct. -/
theorem artifact_id_contract_witness :
    (generateSpecificContentPieces "v"
      [⟨"tweet", "t1", "s1"⟩, ⟨"tweet", "t2", "s2"⟩]
      [some { content_type := some "tweet", title := some "a", tweet_text := some "x" },
       some { content_type := some "tweet", title := some "b", tweet_text := some "y" }]).length = 2
    ∧ (generateSpecificContentPieces "v"
      [⟨"tweet", "t1", "s1"⟩, ⟨"tweet", "t2", "s2"⟩]
      [some { content_type := some "tweet", title := some "a", tweet_text := some "x" },
       some { content_type := some "tweet", title := some "b", tweet_text := some "y" }]).map
        (·.content_id) = [some "v_001", some "v_002"] := by
  refine ⟨by decide, ?_⟩
  have h := (artifact_id_contract "v"
      [⟨"tweet", "t1", "s1"⟩, ⟨"tweet", "t2", "s2"⟩]
      [some { content_type := some "tweet", title := some "a", tweet_text := some "x" },
       some { content_type := some "tweet", title := some "b", tweet_text := some "y" }]
      (by decide)).1
  rw [h]
  decide

/-! ## C1: bounded repair loop -/

lemma firstAttemptBad_true {cid : String} {r : RawContent}
    (h : firstAttemptBad cid r = true) :
    ∃ ct, r.content_type = some ct ∧ knownType ct = true ∧
      validateAs ct (setContentId r cid) = false := by
  rcases hct : r.content_type with _ | ct
  · simp [firstAttemptBad, hct] at h
  · simp only [firstAttemptBad, hct, Bool.and_eq_true, Bool.not_eq_true'] at h
    exact ⟨ct, rfl, h.1, h.2⟩

lemma repairAccepts_true {cid : String} {f : RawContent}
    (h : repairAccepts cid f = true) :
    ∃ ct, f.content_type = some ct ∧ knownType ct = true ∧
      validateAs ct (setContentId f cid) = true := by
  rcases hct : f.content_type with _ | ct
  · simp [repairAccepts, hct] at h
  · simp only [repairAccepts, hct, Bool.and_eq_true] at h
    exact ⟨ct, rfl, h.1, h.2⟩

lemma fixValidationErrors_accepts {cid : String} {f : RawContent} (n : Nat)
    (tl : Oracle) (h : repairAccepts cid f = true) :
    fixValidationErrors (some cid) (n + 1) (some f :: tl)
      = (some (setContentId f cid), tl) := by
  obtain ⟨ct, hct, hk, hv⟩ := repairAccepts_true h
  simp only [setContentId] at hv
  rw [hct] at hv
  simp [fixValidationErrors, takeResp, setContentId, hct, hk, hv]

lemma fixValidationErrors_rejects {cid : String} {f : RawContent} (n : Nat)
    (tl : Oracle) (h : repairAccepts cid f = false) :
    fixValidationErrors (some cid) (n + 1) (some f :: tl)
      = fixValidationErrors (some cid) n tl := by
  rcases hct : f.content_type with _ | ct
  · simp [fixValidationErrors, takeResp, setContentId, hct]
  · by_cases hk : knownType ct = true
    · have hv : validateAs ct (setContentId f cid) = false := by
        have h2 := h
        simp only [repairAccepts, hct, hk, Bool.true_and] at h2
        exact h2
      simp only [setContentId] at hv
      rw [hct] at hv
      simp [fixValidationErrors, takeResp, setContentId, hct, hk, hv]
    · have hk2 : knownType ct = false := by
        revert hk
        cases knownType ct <;> simp
      simp [fixValidationErrors, takeResp, setContentId, hct, hk2]


/-- C1: for an idea whose first generated artifact fails schema validation,
up to 2 repair re-prompts are made. (a) If the first repair response
validates it is accepted with the originally assigned content id copied
onto it, the loop stops (the next oracle entry is left for the following
ideas), and generation continues. (b) Likewise when only the second repair
response validates. (c) If both repair attempts fail, the idea's artifact
is dropped and generation continues with the next idea on the remaining
oracle — no exception interrupts the batch. -/
theorem repair_loop_contract (owner : String) (idea : ContentIdeaR)
    (rest : List ContentIdeaR) (r f1 f2 : RawContent) (tl : Oracle)
    (hbad : firstAttemptBad (formatContentId owner 1) r = true) :
    (repairAccepts (formatContentId owner 1) f1 = true →
      genPiecesAux owner 1 (idea :: rest) (some r :: some f1 :: tl)
        = (setContentId f1 (formatContentId owner 1)
            :: (genPiecesAux owner 2 rest tl).1,
           (genPiecesAux owner 2 rest tl).2))
    ∧ (repairAccepts (formatContentId owner 1) f1 = false →
       repairAccepts (formatContentId owner 1) f2 = true →
      genPiecesAux owner 1 (idea :: rest) (some r :: some f1 :: some f2 :: tl)
        = (setContentId f2 (formatContentId owner 1)
            :: (genPiecesAux owner 2 rest tl).1,
           (genPiecesAux owner 2 rest tl).2))
    ∧ (repairAccepts (formatContentId owner 1) f1 = false →
       repairAccepts (formatContentId owner 1) f2 = false →
      genPiecesAux owner 1 (idea :: rest) (some r :: some f1 :: some f2 :: tl)
        = genPiecesAux owner 2 rest tl) := by
  obtain ⟨ct, hctr, hk, hv⟩ := firstAttemptBad_true hbad
  simp only [setContentId] at hv
  rw [hctr] at hv
  refine ⟨?_, ?_, ?_⟩
  · intro hacc
    obtain ⟨ct1, hctf, hk1, hv1⟩ := repairAccepts_true hacc
    have hfix : fixValidationErrors (some (formatContentId owner 1)) 2
        (some f1 :: tl) = (some (setContentId f1 (formatContentId owner 1)), tl) := by
      have e2 : (2 : Nat) = 1 + 1 := rfl
      rw [e2]
      exact fixValidationErrors_accepts 1 tl hacc
    have hv1b := hv1
    simp only [setContentId] at hv1b
    rw [hctf] at hv1b
    have hpi : processIdea (formatContentId owner 1) (some r :: some f1 :: tl)
        = (some (setContentId f1 (formatContentId owner 1)), tl) := by
      simp [processIdea, takeResp, setContentId, hctr, hk, hv, hfix, hctf, hk1, hv1b]
    rw [genPiecesAux_cons_some hpi]
  · intro hrej hacc
    obtain ⟨ct2, hctf, hk2, hv2⟩ := repairAccepts_true hacc
    have hfix : fixValidationErrors (some (formatContentId owner 1)) 2
        (some f1 :: some f2 :: tl)
        = (some (setContentId f2 (formatContentId owner 1)), tl) := by
      have e2 : (2 : Nat) = 1 + 1 := rfl
      rw [e2, fixValidationErrors_rejects 1 (some f2 :: tl) hrej]
      have e1 : (1 : Nat) = 0 + 1 := rfl
      rw [e1]
      exact fixValidationErrors_accepts 0 tl hacc
    have hv2b := hv2
    simp only [setContentId] at hv2b
    rw [hctf] at hv2b
    have hpi : processIdea (formatContentId owner 1)
        (some r :: some f1 :: some f2 :: tl)
        = (some (setContentId f2 (formatContentId owner 1)), tl) := by
      simp [processIdea, takeResp, setContentId, hctr, hk, hv, hfix, hctf, hk2, hv2b]
    rw [genPiecesAux_cons_some hpi]
  · intro hrej1 hrej2
    have hfix : fixValidationErrors (some (formatContentId owner 1)) 2
        (some f1 :: some f2 :: tl) = (none, tl) := by
      have e2 : (2 : Nat) = 1 + 1 := rfl
      rw [e2, fixValidationErrors_rejects 1 (some f2 :: tl) hrej1]
      have e1 : (1 : Nat) = 0 + 1 := rfl
      rw [e1, fixValidationErrors_rejects 0 tl hrej2]
      rfl
    have hpi : processIdea (formatContentId owner 1)
        (some r :: some f1 :: some f2 :: tl) = (none, tl) := by
      simp [processIdea, takeResp, setContentId, hctr, hk, hv, hfix]
    rw [genPiecesAux_cons_none hpi]


set_option maxRecDepth 4000 in
/-- Witness for C1: a reel whose first response violates `caption ≤ 300`
(301 characters) followed by a compliant repair response yields exactly
one accepted artifact: the repaired one, carrying the original id. -/
theorem repair_loop_contract_witness :
    firstAttemptBad (formatContentId "vid" 1)
      { content_type := some "reel", title := some "t",
        caption := some (String.mk (List.replicate 301 (Char.ofNat 97))),
        hook := some "h", script_body := some "b" } = true
    ∧ repairAccepts (formatContentId "vid" 1)
      { content_type := some "reel", title := some "t", caption := some "ok",
        hook := some "h", script_body := some "b" } = true
    ∧ genPiecesAux "vid" 1 [⟨"reel", "t", "s"⟩]
        [some { content_type := some "reel", title := some "t",
                caption := some (String.mk (List.replicate 301 (Char.ofNat 97))),
                hook := some "h", script_body := some "b" },
         some { content_type := some "reel", title := some "t",
                caption := some "ok", hook := some "h", script_body := some "b" }]
      = ([setContentId
            { content_type := some "reel", title := some "t", caption := some "ok",
              hook := some "h", script_body := some "b" }
            (formatContentId "vid" 1)], []) := by
  refine ⟨by decide, by decide, ?_⟩
  have h := (repair_loop_contract "vid" ⟨"reel", "t", "s"⟩ []
      { content_type := some "reel", title := some "t",
        caption := some (String.mk (List.replicate 301 (Char.ofNat 97))),
        hook := some "h", script_body := some "b" }
      { content_type := some "reel", title := some "t", caption := some "ok",
        hook := some "h", script_body := some "b" }
      ({} : RawContent) []
      (by decide)).1 (by decide)
  rw [h]
  rfl

/-! ## C10: dropped ideas leave gaps, ids never renumbered -/

lemma genPiecesAux_ids_subseq (owner : String) :
    ∀ (ideas : List ContentIdeaR) (i : Nat) (oracle : Oracle),
    ∃ ps : List Nat, ps.Chain' (· < ·)
      ∧ (∀ p ∈ ps, i ≤ p ∧ p < i + ideas.length)
      ∧ ((genPiecesAux owner i ideas oracle).1).map (·.content_id)
          = ps.map (fun p => some (formatContentId owner p)) := by
  intro ideas
  induction ideas with
  | nil =>
    intro i oracle
    exact ⟨[], by simp, by simp, by simp [genPiecesAux_nil]⟩
  | cons a rest ih =>
    intro i oracle
    rcases hp : processIdea (formatContentId owner i) oracle with ⟨res, o2⟩
    cases res with
    | none =>
      obtain ⟨ps, hc, hb, hm⟩ := ih (i + 1) o2
      refine ⟨ps, hc, ?_, ?_⟩
      · intro q hq
        have := hb q hq
        simp only [List.length_cons]
        omega
      · rw [genPiecesAux_cons_none hp]
        exact hm
    | some p =>
      obtain ⟨ps, hc, hb, hm⟩ := ih (i + 1) o2
      refine ⟨i :: ps, ?_, ?_, ?_⟩
      · cases ps with
        | nil => simp
        | cons q qs =>
          rw [List.chain'_cons]
          refine ⟨?_, hc⟩
          have := hb q (List.mem_cons_self q qs)
          omega
      · intro q hq
        simp only [List.length_cons]
        rcases List.mem_cons.mp hq with rfl | hq2
        · omega
        · have := hb q hq2
          omega
      · rw [genPiecesAux_cons_some hp]
        simp only [List.map_cons, hm]
        congr 1
        exact processIdea_some_id (by rw [hp])

/-- C10: the surviving artifacts keep the content id derived from their
idea's 1-based position: the returned id sequence is the image of a
strictly increasing list of positions within `1..k` (never renumbered
after a drop, so gaps are possible); concretely, dropping the middle idea
of three yields ids `v_001, v_003`. -/
theorem surviving_ids_positional :
    (∀ (owner : String) (ideas : List ContentIdeaR) (oracle : Oracle),
      ∃ ps : List Nat, ps.Chain' (· < ·)
        ∧ (∀ p ∈ ps, 1 ≤ p ∧ p ≤ ideas.length)
        ∧ (generateSpecificContentPieces owner ideas oracle).map (·.content_id)
            = ps.map (fun p => some (formatContentId owner p)))
    ∧ (generateSpecificContentPieces "v"
        [⟨"tweet", "a", "x"⟩, ⟨"tweet", "b", "y"⟩, ⟨"tweet", "c", "z"⟩]
        [some { content_type := some "tweet", title := some "a", tweet_text := some "p" },
         none,
         some { content_type := some "tweet", title := some "c", tweet_text := some "q" }]).map
          (·.content_id) = [some "v_001", some "v_003"] := by
  constructor
  · intro owner ideas oracle
    obtain ⟨ps, hc, hb, hm⟩ := genPiecesAux_ids_subseq owner ideas 1 oracle
    refine ⟨ps, hc, ?_, hm⟩
    intro q hq
    have := hb q hq
    omega
  · decide

/-! ## C5: the length-50 guard -/

/-- Counterexample to C5: `generate_content_ideas` has no length guard —
on a 3-character input it still makes one backend call and, given a valid
response, returns the ideas rather than `None`. (The guard lives in
`process_videos`, before idea synthesis is invoked.) -/
theorem short_text_no_guard_cex :
    ("hi!".length < 50)
    ∧ (generateContentIdeas "hi!"
        (some { ideas := IdeasField.list
                  [{ suggested_content_type := some "tweet", suggested_title := some "t",
                     relevant_transcript_snippet := some "s" }] })).2 = 1
    ∧ (generateContentIdeas "hi!"
        (some { ideas := IdeasField.list
                  [{ suggested_content_type := some "tweet", suggested_title := some "t",
                     relevant_transcript_snippet := some "s" }] })).1
        = some [{ suggested_content_type := some "tweet", suggested_title := some "t",
                  relevant_transcript_snippet := some "s" }] := by
  refine ⟨by decide, rfl, rfl⟩

/-- C5 (amended): the sub-50-character guard sits in the caller
`process_videos`: such a video is skipped with zero backend calls (also
when the transcript fetch failed), while `generate_content_ideas` itself
makes exactly one backend call whatever the text length. -/
theorem short_text_guard_in_caller :
    (∀ (owner t : String) (ir : Option IdeasDict) (oracle : Oracle),
      t.length < 50 → processOneVideo owner (some t) ir oracle = (none, 0))
    ∧ (∀ (owner : String) (ir : Option IdeasDict) (oracle : Oracle),
      processOneVideo owner none ir oracle = (none, 0))
    ∧ (∀ (t : String) (resp : Option IdeasDict),
      (generateContentIdeas t resp).2 = 1) := by
  refine ⟨?_, ?_, ?_⟩
  · intro owner t ir oracle h
    simp [processOneVideo, h]
  · intro owner ir oracle
    rfl
  · intro t resp
    rfl

/-- Witness for C5 (amended): a 2-character transcript is skipped with
zero calls; idea generation on any text makes one call. -/
theorem short_text_guard_in_caller_witness :
    ("hi".length < 50 ∧ processOneVideo "v" (some "hi") none [] = (none, 0))
    ∧ (generateContentIdeas "hi" none).2 = 1 := by
  refine ⟨⟨by decide, ?_⟩, ?_⟩
  · exact short_text_guard_in_caller.1 "v" "hi" none [] (by decide)
  · exact short_text_guard_in_caller.2.2 "hi" none

/-! ## C6: one bad idea element rejects the whole batch -/

/-- Counterexample to C6: a batch holding one valid and one invalid idea
element is rejected as a whole — the video is skipped with no artifact
generated — rather than the failing element being skipped. -/
theorem one_bad_idea_rejects_batch_cex :
    validIdea { suggested_content_type := some "tweet", suggested_title := some "t",
                relevant_transcript_snippet := some "s" } = true
    ∧ validIdea { suggested_content_type := some "bogus", suggested_title := some "t",
                  relevant_transcript_snippet := some "s" } = false
    ∧ validateIdeasBatch
        [{ suggested_content_type := some "tweet", suggested_title := some "t",
           relevant_transcript_snippet := some "s" },
         { suggested_content_type := some "bogus", suggested_title := some "t",
           relevant_transcript_snippet := some "s" }] = none
    ∧ (processOneVideo "v" (some (String.mk (List.replicate 60 (Char.ofNat 97))))
        (some { ideas := IdeasField.list
                  [{ suggested_content_type := some "tweet", suggested_title := some "t",
                     relevant_transcript_snippet := some "s" },
                   { suggested_content_type := some "bogus", suggested_title := some "t",
                     relevant_transcript_snippet := some "s" }] })
        [some { content_type := some "tweet", title := some "a", tweet_text := some "x" }]).1
      = none := by
  refine ⟨by decide, by decide, by decide, by decide⟩

/-- C6 (amended): idea elements are validated as one batch
(`GeneratedIdeas(ideas=...)`): a batch with any invalid element is
rejected entirely and the video skipped; only a batch whose elements are
all valid proceeds, yielding every element. -/
theorem batch_validation_all_or_nothing :
    (∀ rs : List RawIdea, (∃ r ∈ rs, validIdea r = false) →
      validateIdeasBatch rs = none)
    ∧ (∀ rs : List RawIdea, (∀ r ∈ rs, validIdea r = true) →
      validateIdeasBatch rs = some (rs.map toContentIdeaR)) := by
  constructor
  · intro rs ⟨r, hr, hv⟩
    have hall : rs.all validIdea = false := by
      rcases hba : rs.all validIdea with _ | _
      · rfl
      · have := List.all_eq_true.mp hba r hr
        rw [this] at hv
        cases hv
    simp [validateIdeasBatch, hall]
  · intro rs hall
    have : rs.all validIdea = true := List.all_eq_true.mpr hall
    simp [validateIdeasBatch, this]

/-- Witness for C6 (amended): the two-element batch above is rejected;
an all-valid singleton batch passes. -/
theorem batch_validation_all_or_nothing_witness :
    validateIdeasBatch
      [{ suggested_content_type := some "tweet", suggested_title := some "t",
         relevant_transcript_snippet := some "s" },
       { suggested_content_type := some "bogus", suggested_title := some "t",
         relevant_transcript_snippet := some "s" }] = none
    ∧ validateIdeasBatch
      [{ suggested_content_type := some "reel", suggested_title := some "t",
         relevant_transcript_snippet := some "s" }]
      = some [toContentIdeaR
          { suggested_content_type := some "reel", suggested_title := some "t",
            relevant_transcript_snippet := some "s" }] := by
  constructor
  · exact batch_validation_all_or_nothing.1 _
      ⟨{ suggested_content_type := some "bogus", suggested_title := some "t",
         relevant_transcript_snippet := some "s" }, by decide, by decide⟩
  · exact batch_validation_all_or_nothing.2 _ (by decide)

/-! ## C8: the relevance score formula and its ordering consequence -/

/-- C8: the code's relevance score equals the specified formula, and a
source whose title contains the literal query scores at least as high as
one with only 50% title token overlap, all other fields equal. -/
theorem relevance_score_formula :
    (∀ (src : BrainSourceR) (queryLower : String) (queryWords : Finset String),
      calculateRelevanceScore src queryLower queryWords
        = specRelevanceScore src queryLower queryWords)
    ∧ (∀ (a b : BrainSourceR) (queryLower : String) (queryWords : Finset String),
      pyIn queryLower (pyLower a.title) = true →
      pyIn queryLower (pyLower b.title) = false →
      tokenOverlap queryWords (wordSet (pyLower b.title)) = 1 / 2 →
      a.content = b.content → a.topics = b.topics → a.tags = b.tags →
      calculateRelevanceScore b queryLower queryWords
        ≤ calculateRelevanceScore a queryLower queryWords) := by
  constructor
  · intro src queryLower queryWords
    obtain ⟨sid, title, content, topics, tags, uc, lu⟩ := src
    rcases topics with _ | topics <;> rcases tags with _ | tags <;>
      (unfold calculateRelevanceScore specRelevanceScore
       dsimp only
       split_ifs <;> (first | rfl | (congr 1; ring)))
  · intro a b queryLower queryWords hA hB hOv hc ht hg
    unfold calculateRelevanceScore
    dsimp only
    rw [← hc, ← ht, ← hg, hOv]
    simp only [hA, hB, Bool.false_eq_true, if_true, if_false]
    apply min_le_min _ le_rfl
    have h1 : (0.3 : ℚ) * (1 / 2) ≤ 0.4 := by norm_num
    linarith

/-- Witness for C8: a title containing the query literally outscored a
title with half its tokens. -/
theorem relevance_score_formula_witness :
    calculateRelevanceScore
      { title := "shopify tricks", content := "store setup basics" }
      "shopify tips" ({"shopify", "tips"} : Finset String)
    ≤ calculateRelevanceScore
      { title := "Top Shopify Tips", content := "store setup basics" }
      "shopify tips" ({"shopify", "tips"} : Finset String) :=
  relevance_score_formula.2
    { title := "Top Shopify Tips", content := "store setup basics" }
    { title := "shopify tricks", content := "store setup basics" }
    "shopify tips" ({"shopify", "tips"} : Finset String)
    (by decide) (by decide)
    (by
      show tokenOverlap {"shopify", "tips"} (wordSet (pyLower "shopify tricks")) = 1 / 2
      have h1 : (({"shopify", "tips"} : Finset String) ∩
          wordSet (pyLower "shopify tricks")).card = 1 := by decide
      have h2 : ({"shopify", "tips"} : Finset String).card = 2 := by decide
      unfold tokenOverlap
      rw [h1, h2]
      norm_num)
    rfl rfl rfl

/-! ## C4: code-fence stripping in the generation client -/

lemma stringMk_data (s : String) : String.mk s.data = s := by
  cases s
  rfl

lemma stripChars_newline_wrap (l : List Char) :
    stripChars (Char.ofNat 10 :: (l ++ [Char.ofNat 10])) = stripChars l := by
  unfold stripChars
  rw [List.dropWhile_cons]
  have hnl : isPySpace (Char.ofNat 10) = true := rfl
  simp only [hnl, if_true]
  rw [List.dropWhile_append]
  by_cases he : (l.dropWhile isPySpace).isEmpty
  · have he2 : l.dropWhile isPySpace = [] := by simpa [List.isEmpty_iff] using he
    simp [he, he2, hnl]
  · simp only [he, Bool.false_eq_true, if_false]
    rw [List.reverse_append]
    simp [hnl]

lemma stripChars_fence (mid : List Char) :
    stripChars (backtick :: (mid ++ [backtick])) = backtick :: (mid ++ [backtick]) := by
  unfold stripChars
  have hbt : isPySpace backtick = false := rfl
  rw [List.dropWhile_cons]
  simp only [hbt, Bool.false_eq_true, if_false]
  rw [List.reverse_cons, List.reverse_append]
  simp only [List.reverse_cons, List.reverse_nil, List.nil_append, List.cons_append,
    List.dropWhile_cons, hbt, Bool.false_eq_true, if_false]
  simp

lemma parseJsonVal_backtick (k : Nat) (rest : List Char) :
    parseJsonVal (k + 1) (backtick :: rest) = none := by
  have hws : isJsonWs backtick = false := rfl
  rw [parseJsonVal]
  simp only [skipWs, List.dropWhile_cons, hws, Bool.false_eq_true, if_false]
  have h1 : (backtick = jsonQuote) = False := by simp [backtick, jsonQuote, Char.ext_iff]
  have h2 : (backtick = jsonLBrack) = False := by simp [backtick, jsonLBrack, Char.ext_iff]
  have h3 : (backtick = jsonLBrace) = False := by simp [backtick, jsonLBrace, Char.ext_iff]
  have h4 : (backtick = Char.ofNat 116) = False := by simp [backtick, Char.ext_iff]
  have h5 : (backtick = Char.ofNat 102) = False := by simp [backtick, Char.ext_iff]
  have h6 : (backtick = Char.ofNat 110) = False := by simp [backtick, Char.ext_iff]
  simp only [h1, h2, h3, h4, h5, h6, if_false]
  have hnum : parseNumber (backtick :: rest) = none := by
    have hd : isJsonDigit backtick = false := rfl
    have hm : (backtick = jsonMinus) = False := by simp [backtick, jsonMinus, Char.ext_iff]
    simp [parseNumber, hm, hd, List.takeWhile_cons]
  simp [hnum]

lemma pyJsonLoads_backtick (s : String) (h : s.data.head? = some backtick) :
    pyJsonLoads s = none := by
  obtain ⟨rest, hr⟩ : ∃ rest, s.data = backtick :: rest := by
    cases hd : s.data with
    | nil => rw [hd] at h; cases h
    | cons a t =>
      rw [hd] at h
      simp only [List.head?_cons, Option.some_inj] at h
      exact ⟨t, by rw [h]⟩
  unfold pyJsonLoads
  rw [hr]
  have hk : 2 * s.length + 4 = (2 * s.length + 3) + 1 := by omega
  rw [hk, parseJsonVal_backtick]

/-- Counterexample to C4: the client only strips ```` ```json ```` fences.
A bare ```` ``` ```` fence is left in place, so a response whose content
after removing that fence is the valid JSON object `{}` still fails to
parse and yields `None` instead of the object. -/
theorem bare_fence_not_stripped_cex :
    pyJsonLoads "\x7b\x7d" = some (JVal.obj [])
    ∧ generateContentModel (some "```\n\x7b\x7d\n```") = none := by
  constructor
  · rfl
  · rfl

/-- C4 (amended): the generation client strips only a ```` ```json ````
code fence (slicing characters `7:-3` of the stripped response) before
parsing; for every payload `j` whose stripped content parses as a JSON
value `v`, a ```` ```json ```` -fenced response yields `v`, while the same
payload in a bare ```` ``` ```` fence is not stripped and yields `None`. -/
theorem json_fence_only_stripped (j : String) (v : JVal)
    (hp : pyJsonLoads (pyStrip j) = some v) :
    generateContentModel (some ("```json\n" ++ j ++ "\n```")) = some v
    ∧ generateContentModel (some ("```\n" ++ j ++ "\n```")) = none := by
  have l1 : ("```json\n").data = ['`', '`', '`', 'j', 's', 'o', 'n', '\n'] := rfl
  have l2 : ("\n```").data = ['\n', '`', '`', '`'] := rfl
  have l3 : ("```\n").data = ['`', '`', '`', '\n'] := rfl
  have hb : backtick = '`' := rfl
  have hdata : ("```json\n" ++ j ++ "\n```").data
      = backtick :: ((['`', '`', 'j', 's', 'o', 'n', '\n'] ++ j.data ++ ['\n', '`', '`'])
          ++ [backtick]) := by
    rw [String.data_append, String.data_append, l1, l2, hb]
    simp
  have hdata2 : ("```\n" ++ j ++ "\n```").data
      = backtick :: ((['`', '`', '\n'] ++ j.data ++ ['\n', '`', '`']) ++ [backtick]) := by
    rw [String.data_append, String.data_append, l3, l2, hb]
    simp
  constructor
  · have hne : ("```json\n" ++ j ++ "\n```") ≠ "" := by
      intro h
      replace h := congrArg String.data h
      rw [hdata] at h
      cases h
    have hstrip : pyStrip ("```json\n" ++ j ++ "\n```") = "```json\n" ++ j ++ "\n```" := by
      unfold pyStrip
      rw [hdata, stripChars_fence, ← hdata, stringMk_data]
    have hsw : pyStartsWith "```json" ("```json\n" ++ j ++ "\n```") = true := by
      unfold pyStartsWith
      rw [hdata, hb]
      have l4 : ("```json").data = ['`', '`', '`', 'j', 's', 'o', 'n'] := rfl
      rw [l4]
      simp [List.isPrefixOf]
    have hlen : ("```json\n" ++ j ++ "\n```").length = j.data.length + 12 := by
      have : ("```json\n" ++ j ++ "\n```").length
          = (("```json\n" ++ j ++ "\n```").data).length := rfl
      rw [this, hdata]
      simp
    have hslice : pySlice7m3 ("```json\n" ++ j ++ "\n```")
        = String.mk (Char.ofNat 10 :: (j.data ++ [Char.ofNat 10])) := by
      unfold pySlice7m3
      congr 1
      rw [hdata, hlen, hb]
      have hdrop : (('`' : Char) :: ((['`', '`', 'j', 's', 'o', 'n', '\n'] ++ j.data
            ++ ['\n', '`', '`']) ++ ['`'])).drop 7
          = '\n' :: (j.data ++ ['\n', '`', '`', '`']) := by
        simp
      rw [hdrop]
      have hnl : Char.ofNat 10 = '\n' := rfl
      rw [hnl]
      have h12 : j.data.length + 12 - 10 = (j.data.length + 1) + 1 := by omega
      rw [h12, List.take_succ_cons]
      congr 1
      have h13 : List.take (j.data.length + 1) (j.data ++ ['\n', '`', '`', '`'])
          = j.data ++ List.take 1 ['\n', '`', '`', '`'] := List.take_append 1
      simpa using h13
    have hinner : pyStrip (pySlice7m3 ("```json\n" ++ j ++ "\n```")) = pyStrip j := by
      rw [hslice]
      unfold pyStrip
      rw [show (String.mk (Char.ofNat 10 :: (j.data ++ [Char.ofNat 10]))).data
            = Char.ofNat 10 :: (j.data ++ [Char.ofNat 10]) from rfl,
        stripChars_newline_wrap]
    show (if ("```json\n" ++ j ++ "\n```") = "" then none
      else
        let s := pyStrip ("```json\n" ++ j ++ "\n```")
        let s2 := if pyStartsWith "```json" s then pyStrip (pySlice7m3 s) else s
        pyJsonLoads s2) = some v
    rw [if_neg hne]
    dsimp only
    rw [hstrip, hsw]
    simp only [if_true]
    rw [hinner]
    exact hp
  · have hne : ("```\n" ++ j ++ "\n```") ≠ "" := by
      intro h
      replace h := congrArg String.data h
      rw [hdata2] at h
      cases h
    have hstrip : pyStrip ("```\n" ++ j ++ "\n```") = "```\n" ++ j ++ "\n```" := by
      unfold pyStrip
      rw [hdata2, stripChars_fence, ← hdata2, stringMk_data]
    have hjn : (('j' : Char) == '\n') = false := by decide
    have hsw : pyStartsWith "```json" ("```\n" ++ j ++ "\n```") = false := by
      unfold pyStartsWith
      rw [hdata2, hb]
      have l4 : ("```json").data = ['`', '`', '`', 'j', 's', 'o', 'n'] := rfl
      rw [l4]
      simp [List.isPrefixOf, hjn]
    have hload : pyJsonLoads ("```\n" ++ j ++ "\n```") = none := by
      apply pyJsonLoads_backtick
      rw [hdata2]
      rfl
    show (if ("```\n" ++ j ++ "\n```") = "" then none
      else
        let s := pyStrip ("```\n" ++ j ++ "\n```")
        let s2 := if pyStartsWith "```json" s then pyStrip (pySlice7m3 s) else s
        pyJsonLoads s2) = none
    rw [if_neg hne]
    dsimp only
    rw [hstrip, hsw]
    simp only [Bool.false_eq_true, if_false]
    exact hload

/-- Witness for C4 (amended): a fenced `{"a": 1}` payload. -/
theorem json_fence_only_stripped_witness :
    pyStrip "\x7b\"a\": 1\x7d" = "\x7b\"a\": 1\x7d"
    ∧ pyJsonLoads "\x7b\"a\": 1\x7d" = some (JVal.obj [("a", JVal.num 1)])
    ∧ generateContentModel (some ("```json\n" ++ "\x7b\"a\": 1\x7d" ++ "\n```"))
        = some (JVal.obj [("a", JVal.num 1)])
    ∧ generateContentModel (some ("```\n" ++ "\x7b\"a\": 1\x7d" ++ "\n```")) = none := by
  refine ⟨rfl, rfl, ?_, ?_⟩
  · exact (json_fence_only_stripped "\x7b\"a\": 1\x7d" (JVal.obj [("a", JVal.num 1)]) rfl).1
  · exact (json_fence_only_stripped "\x7b\"a\": 1\x7d" (JVal.obj [("a", JVal.num 1)]) rfl).2

/-! ## C3: rate gate invariants -/

lemma tryAcquire_lrd (rpm qpd : Nat) (s : RateState) (e : RateEvent) :
    ((tryAcquire rpm qpd s e).1).last_reset_day = e.day := by
  unfold tryAcquire
  dsimp only
  split <;> split <;> simp_all

lemma tryAcquire_flag (rpm qpd : Nat) (s : RateState) (e : RateEvent) :
    (tryAcquire rpm qpd s e).2.2 = decide (e.day ≠ s.last_reset_day) := by
  unfold tryAcquire
  dsimp only
  split <;> split <;> simp_all

lemma runRate_nil (rpm qpd : Nat) (s : RateState) :
    runRate rpm qpd s [] = (s, [], 0) := rfl

lemma runRate_cons (rpm qpd : Nat) (s : RateState) (e : RateEvent)
    (es : List RateEvent) :
    runRate rpm qpd s (e :: es)
      = ((runRate rpm qpd (tryAcquire rpm qpd s e).1 es).1,
         (if (tryAcquire rpm qpd s e).2.1 then [e] else [])
           ++ (runRate rpm qpd (tryAcquire rpm qpd s e).1 es).2.1,
         (if (tryAcquire rpm qpd s e).2.2 then 1 else 0)
           + (runRate rpm qpd (tryAcquire rpm qpd s e).1 es).2.2) := rfl

lemma runRate_resets (rpm qpd : Nat) :
    ∀ (events : List RateEvent) (s : RateState),
    (runRate rpm qpd s events).2.2
      = countDayChanges s.last_reset_day (events.map (·.day)) := by
  intro events
  induction events with
  | nil => intro s; rfl
  | cons e es ih =>
    intro s
    rw [runRate_cons]
    simp only [List.map_cons, countDayChanges]
    rw [ih, tryAcquire_lrd, tryAcquire_flag]
    by_cases hd : e.day = s.last_reset_day <;> simp [hd]

lemma runRate_sublist (rpm qpd : Nat) :
    ∀ (events : List RateEvent) (s : RateState),
    List.Sublist (runRate rpm qpd s events).2.1 events := by
  intro events
  induction events with
  | nil => intro s; simp [runRate_nil]
  | cons e es ih =>
    intro s
    rw [runRate_cons]
    dsimp only
    cases (tryAcquire rpm qpd s e).2.1 with
    | false =>
      simp only [if_false, List.nil_append, Bool.false_eq_true]
      exact List.Sublist.cons e (ih _)
    | true =>
      simp only [if_true]
      exact List.Sublist.cons₂ e (ih _)

lemma runRate_daily_inv (rpm qpd : Nat) :
    ∀ (events : List RateEvent) (s : RateState) (gpast : List RateEvent),
    (∀ g ∈ gpast, g.day ≤ s.last_reset_day) →
    ((gpast.filter (fun g => g.day = s.last_reset_day)).length ≤ s.daily_count) →
    s.daily_count ≤ qpd →
    (∀ d : Int, (gpast.filter (fun g => g.day = d)).length ≤ qpd) →
    (∀ e ∈ events, s.last_reset_day ≤ e.day) →
    List.Pairwise (fun a b => a.day ≤ b.day) events →
    ∀ d : Int,
      ((gpast ++ (runRate rpm qpd s events).2.1).filter (fun g => g.day = d)).length
        ≤ qpd := by
  intro events
  induction events with
  | nil =>
    intro s gpast _ _ _ hball _ _ d
    simpa [runRate_nil] using hball d
  | cons e es ih =>
    intro s gpast hle hcnt hdc hball hfut hpair d
    have hfol : ∀ e2 ∈ es, e.day ≤ e2.day := fun e2 h2 =>
      (List.pairwise_cons.mp hpair).1 e2 h2
    have hpair2 := (List.pairwise_cons.mp hpair).2
    rw [runRate_cons]
    dsimp only
    by_cases hr : e.day = s.last_reset_day
    · by_cases hg : s.daily_count < qpd ∧ (pruneOld e.now s.request_times).length < rpm
      · have heq : tryAcquire rpm qpd s e
            = ({ s with request_times := pruneOld e.now s.request_times ++ [e.now], daily_count := s.daily_count + 1 }, true, false) := by
          simp [tryAcquire, hr, hg]
        rw [heq]
        dsimp only
        rw [if_pos rfl]
        rw [← List.append_assoc]
        apply ih
        · intro g hgm
          rcases List.mem_append.mp hgm with hgm | hgm
          · exact hle g hgm
          · simp only [List.mem_singleton] at hgm
            subst hgm
            exact le_of_eq hr
        · rw [List.filter_append]
          simp only [List.length_append]
          have h1 : ((gpast.filter (fun g => g.day = s.last_reset_day)).length)
              ≤ s.daily_count := hcnt
          have h2 : (([e].filter (fun g => g.day = s.last_reset_day)).length) ≤ 1 := by
            simp [List.filter]
            split <;> simp
          try simp only [RateState.daily_count]
          omega
        · try simp only [RateState.daily_count]
          omega
        · intro d2
          rw [List.filter_append]
          simp only [List.length_append]
          have h1 := hball d2
          by_cases hd2 : e.day = d2
          · have h2 : ([e].filter (fun g => g.day = d2)).length = 1 := by
              simp [List.filter, hd2]
            have h3 : (gpast.filter (fun g => g.day = d2)).length ≤ s.daily_count := by
              rw [← hd2, hr] at *
              exact hcnt
            omega
          · have h2 : ([e].filter (fun g => g.day = d2)).length = 0 := by
              simp [List.filter, hd2]
            omega
        · intro e2 h2
          try simp only [RateState.last_reset_day]
          calc s.last_reset_day = e.day := hr.symm
          _ ≤ e2.day := hfol e2 h2
        · exact hpair2
      · have heq : tryAcquire rpm qpd s e
            = ({ s with request_times := pruneOld e.now s.request_times }, false, false) := by
          simp [tryAcquire, hr, hg]
        rw [heq]
        dsimp only
        rw [if_neg (by simp)]
        rw [List.nil_append]
        apply ih
        · exact hle
        · exact hcnt
        · exact hdc
        · exact hball
        · intro e2 h2
          try simp only [RateState.last_reset_day]
          calc s.last_reset_day = e.day := hr.symm
          _ ≤ e2.day := hfol e2 h2
        · exact hpair2
    · have hlt : s.last_reset_day < e.day := lt_of_le_of_ne (hfut e (by simp)) (by
        intro h
        exact hr h.symm)
      have hfilpast : ∀ d2 : Int, e.day ≤ d2 →
          gpast.filter (fun g => g.day = d2) = [] := by
        intro d2 hd2
        rw [List.filter_eq_nil_iff]
        intro g hgm
        have := hle g hgm
        simp only [decide_eq_true_eq]
        omega
      by_cases hg : 0 < qpd ∧ (pruneOld e.now s.request_times).length < rpm
      · have heq : tryAcquire rpm qpd s e
            = ({ s with request_times := pruneOld e.now s.request_times ++ [e.now], daily_count := 1, last_reset_day := e.day }, true, true) := by
          simp [tryAcquire, hr, hg]
        rw [heq]
        dsimp only
        rw [if_pos rfl]
        rw [← List.append_assoc]
        apply ih
        · intro g hgm
          rcases List.mem_append.mp hgm with hgm | hgm
          · have := hle g hgm
            try simp only [RateState.last_reset_day]
            omega
          · simp only [List.mem_singleton] at hgm
            subst hgm
            simp
        · rw [List.filter_append]
          simp only [List.length_append, RateState.last_reset_day]
          rw [hfilpast e.day le_rfl]
          simp [List.filter]
        · simpa using hg.1
        · intro d2
          rw [List.filter_append]
          simp only [List.length_append]
          by_cases hd2 : e.day = d2
          · rw [← hd2, hfilpast e.day le_rfl]
            have h2 : ([e].filter (fun g => g.day = e.day)).length = 1 := by
              simp [List.filter]
            simp only [List.length_nil]
            omega
          · have h2 : ([e].filter (fun g => g.day = d2)).length = 0 := by
              simp [List.filter, hd2]
            have := hball d2
            omega
        · intro e2 h2
          try simp only [RateState.last_reset_day]
          exact hfol e2 h2
        · exact hpair2
      · have heq : tryAcquire rpm qpd s e
            = ({ s with request_times := pruneOld e.now s.request_times, daily_count := 0, last_reset_day := e.day }, false, true) := by
          simp [tryAcquire, hr, hg]
        rw [heq]
        dsimp only
        rw [if_neg (by simp)]
        rw [List.nil_append]
        apply ih
        · intro g hgm
          have := hle g hgm
          try simp only [RateState.last_reset_day]
          omega
        · try simp only [RateState.last_reset_day]
          rw [hfilpast e.day le_rfl]
          simp
        · simp
        · exact hball
        · intro e2 h2
          try simp only [RateState.last_reset_day]
          exact hfol e2 h2
        · exact hpair2

lemma dropWhile_lt_eq_filter_of_sorted (b : Int) :
    ∀ {l : List Int}, l.Pairwise (· ≤ ·) →
    l.dropWhile (fun x => decide (x < b)) = l.filter (fun x => decide (b ≤ x)) := by
  intro l
  induction l with
  | nil => intro _; rfl
  | cons a t ih =>
    intro hp
    rw [List.dropWhile_cons, List.filter_cons]
    by_cases ha : a < b
    · have h1 : decide (a < b) = true := by simp [ha]
      have h2 : decide (b ≤ a) = false := by
        simp only [decide_eq_false_iff_not]
        omega
      rw [h1, h2]
      simp only [if_true, Bool.false_eq_true, if_false]
      exact ih (List.pairwise_cons.mp hp).2
    · have h1 : decide (a < b) = false := by
        simp only [decide_eq_false_iff_not]
        omega
      have h2 : decide (b ≤ a) = true := by
        simp only [decide_eq_true_eq]
        omega
      rw [h1, h2]
      simp only [Bool.false_eq_true, if_false, if_true]
      rw [List.filter_eq_self.mpr]
      intro x hx
      have := (List.pairwise_cons.mp hp).1 x hx
      simp only [decide_eq_true_eq]
      omega

lemma tryAcquire_rt (rpm qpd : Nat) (s : RateState) (e : RateEvent) :
    ((tryAcquire rpm qpd s e).1).request_times
      = (if (tryAcquire rpm qpd s e).2.1 then pruneOld e.now s.request_times ++ [e.now]
         else pruneOld e.now s.request_times) := by
  unfold tryAcquire
  dsimp only
  split <;> split <;> rfl

lemma tryAcquire_granted_len {rpm qpd : Nat} {s : RateState} {e : RateEvent}
    (h : (tryAcquire rpm qpd s e).2.1 = true) :
    (pruneOld e.now s.request_times).length < rpm := by
  unfold tryAcquire at h
  dsimp only at h
  split at h <;> split at h <;> simp_all

lemma runRate_window_inv (rpm qpd : Nat) :
    ∀ (events : List RateEvent) (s : RateState) (gpast : List Int) (tcur : Int),
    gpast.Pairwise (· ≤ ·) →
    (∀ x ∈ gpast, x ≤ tcur) →
    s.request_times = gpast.filter (fun x => decide (tcur - 60 ≤ x)) →
    (∀ t : Int, (gpast.filter
      (fun x => decide (t ≤ x) && decide (x ≤ t + 60))).length ≤ rpm) →
    (∀ e ∈ events, tcur ≤ e.now) →
    List.Pairwise (fun a b => a.now ≤ b.now) events →
    ∀ t : Int,
      ((gpast ++ ((runRate rpm qpd s events).2.1.map (·.now))).filter
        (fun x => decide (t ≤ x) && decide (x ≤ t + 60))).length ≤ rpm := by
  intro events
  induction events with
  | nil =>
    intro s gpast tcur _ _ _ hwin _ _ t
    simpa [runRate_nil] using hwin t
  | cons e es ih =>
    intro s gpast tcur hsort hle hq hwin hfut hpair t
    have hfol : ∀ e2 ∈ es, e.now ≤ e2.now := fun e2 h2 =>
      (List.pairwise_cons.mp hpair).1 e2 h2
    have hpair2 := (List.pairwise_cons.mp hpair).2
    have hte : tcur ≤ e.now := hfut e (by simp)
    have hprune : pruneOld e.now s.request_times
        = gpast.filter (fun x => decide (e.now - 60 ≤ x)) := by
      rw [hq]
      unfold pruneOld
      rw [dropWhile_lt_eq_filter_of_sorted (e.now - 60) (hsort.filter _)]
      rw [List.filter_filter]
      apply List.filter_congr
      intro x hx
      by_cases h2 : e.now - 60 ≤ x
      · have h3 : decide (e.now - 60 ≤ x) = true := by simp [h2]
        have h4 : decide (tcur - 60 ≤ x) = true := by
          simp only [decide_eq_true_eq]
          omega
        rw [h3, h4]
        rfl
      · have h3 : decide (e.now - 60 ≤ x) = false := by
          simp only [decide_eq_false_iff_not]
          omega
        rw [h3]
        rfl
    rw [runRate_cons]
    dsimp only
    cases hgr : (tryAcquire rpm qpd s e).2.1 with
    | true =>
      have hrt : ((tryAcquire rpm qpd s e).1).request_times
          = pruneOld e.now s.request_times ++ [e.now] := by
        rw [tryAcquire_rt, hgr, if_pos rfl]
      have hlen := tryAcquire_granted_len hgr
      rw [if_pos rfl]
      rw [List.map_append]
      rw [show gpast ++ (([e].map (·.now))
            ++ ((runRate rpm qpd (tryAcquire rpm qpd s e).1 es).2.1.map (·.now)))
          = (gpast ++ [e.now])
            ++ ((runRate rpm qpd (tryAcquire rpm qpd s e).1 es).2.1.map (·.now)) by simp]
      apply ih _ _ e.now
      · rw [List.pairwise_append]
        refine ⟨hsort, List.pairwise_singleton _ _, ?_⟩
        intro x hx y hy
        simp only [List.mem_singleton] at hy
        subst hy
        have := hle x hx
        omega
      · intro x hx
        rcases List.mem_append.mp hx with hx | hx
        · have := hle x hx
          omega
        · simp only [List.mem_singleton] at hx
          omega
      · rw [hrt, hprune, List.filter_append]
        congr 1
        have h1 : decide (e.now - 60 ≤ e.now) = true := by
          simp only [decide_eq_true_eq]
          omega
        simp [List.filter, h1]
      · intro t2
        rw [List.filter_append]
        simp only [List.length_append]
        by_cases hw : t2 ≤ e.now ∧ e.now ≤ t2 + 60
        · have h1 : ([e.now].filter
              (fun x => decide (t2 ≤ x) && decide (x ≤ t2 + 60))).length ≤ 1 := by
            simp [List.filter]
            split <;> simp
          have h2 : (gpast.filter
              (fun x => decide (t2 ≤ x) && decide (x ≤ t2 + 60))).length
              ≤ (gpast.filter (fun x => decide (e.now - 60 ≤ x))).length := by
            apply List.Sublist.length_le
            apply List.monotone_filter_right
            intro a ha
            simp only [Bool.and_eq_true, decide_eq_true_eq] at ha
            simp only [decide_eq_true_eq]
            omega
          rw [hprune] at hlen
          omega
        · have h1 : ([e.now].filter
              (fun x => decide (t2 ≤ x) && decide (x ≤ t2 + 60))).length = 0 := by
            simp only [List.filter]
            have : (decide (t2 ≤ e.now) && decide (e.now ≤ t2 + 60)) = false := by
              rcases not_and_or.mp hw with h | h <;> simp [h]
            rw [this]
            rfl
          have h2 := hwin t2
          omega
      · exact hfol
      · exact hpair2
    | false =>
      have hrt : ((tryAcquire rpm qpd s e).1).request_times
          = pruneOld e.now s.request_times := by
        rw [tryAcquire_rt, hgr]
        rfl
      rw [if_neg (by simp)]
      rw [List.nil_append]
      apply ih _ _ e.now
      · exact hsort
      · intro x hx
        have := hle x hx
        omega
      · rw [hrt, hprune]
      · exact hwin
      · exact hfol
      · exact hpair2

/-- C3: for every serialized sequence of `wait_for_capacity` attempts with
nondecreasing clock and calendar-day observations, (1) no more than `rpm`
granted acquisitions fall in any rolling 60-second window, (2) no more
than `qpd` granted acquisitions fall on any one calendar day, (3) the
daily counter is reset exactly once per observed day change, and (4) a
caller failing either constraint is simply not granted — the grant list is
a sub-sequence of the attempts and the run never errors. -/
theorem rate_gate_limits (rpm qpd : Nat) (day0 : Int) (events : List RateEvent)
    (hnow : List.Pairwise (fun a b => a.now ≤ b.now) events)
    (hday : List.Pairwise (fun a b => a.day ≤ b.day) events)
    (hday0 : ∀ e ∈ events, day0 ≤ e.day) :
    (∀ t : Int, (((runRate rpm qpd (initRateState day0) events).2.1).filter
        (fun g => decide (t ≤ g.now) && decide (g.now ≤ t + 60))).length ≤ rpm)
    ∧ (∀ d : Int, (((runRate rpm qpd (initRateState day0) events).2.1).filter
        (fun g => g.day = d)).length ≤ qpd)
    ∧ (runRate rpm qpd (initRateState day0) events).2.2
        = countDayChanges day0 (events.map (·.day))
    ∧ List.Sublist (runRate rpm qpd (initRateState day0) events).2.1 events := by
  refine ⟨?_, ?_, ?_, ?_⟩
  · intro t
    have hmap : ∀ tcur : Int, (∀ e ∈ events, tcur ≤ e.now) →
        ((([] : List Int)
          ++ ((runRate rpm qpd (initRateState day0) events).2.1.map (·.now))).filter
            (fun x => decide (t ≤ x) && decide (x ≤ t + 60))).length ≤ rpm := by
      intro tcur hall
      exact runRate_window_inv rpm qpd events (initRateState day0) [] tcur
        (by simp) (by simp) rfl (by intro t2; simp) hall hnow t
    have htimes : (((runRate rpm qpd (initRateState day0) events).2.1.map (·.now)).filter
        (fun x => decide (t ≤ x) && decide (x ≤ t + 60))).length ≤ rpm := by
      cases events with
      | nil => simp [runRate_nil]
      | cons e es =>
        have hall : ∀ e2 ∈ e :: es, e.now ≤ e2.now := by
          intro e2 h2
          rcases List.mem_cons.mp h2 with rfl | h2
          · exact le_rfl
          · exact (List.pairwise_cons.mp hnow).1 e2 h2
        simpa using hmap e.now hall
    rw [List.filter_map] at htimes
    rw [List.length_map] at htimes
    exact htimes
  · intro d
    have := runRate_daily_inv rpm qpd events (initRateState day0) []
      (by intro g hg; cases hg) (by simp) (Nat.zero_le _)
      (by intro d2; simp) hday0 hday d
    simpa using this
  · exact runRate_resets rpm qpd events (initRateState day0)
  · exact runRate_sublist rpm qpd events (initRateState day0)

/-- Witness for C3: rpm=1, qpd=2; a second attempt 30s after the first is
denied, one at 61s is granted (the first timestamp has left the window),
and a next-day attempt is granted after the daily reset. -/
theorem rate_gate_limits_witness :
    ((runRate 1 2 (initRateState 1)
        [⟨0, 1⟩, ⟨30, 1⟩, ⟨61, 1⟩, ⟨200, 2⟩]).2.1
      = [⟨0, 1⟩, ⟨61, 1⟩, ⟨200, 2⟩])
    ∧ (runRate 1 2 (initRateState 1)
        [⟨0, 1⟩, ⟨30, 1⟩, ⟨61, 1⟩, ⟨200, 2⟩]).2.2 = 1
    ∧ (∀ t : Int, (((runRate 1 2 (initRateState 1)
        [⟨0, 1⟩, ⟨30, 1⟩, ⟨61, 1⟩, ⟨200, 2⟩]).2.1).filter
        (fun g => decide (t ≤ g.now) && decide (g.now ≤ t + 60))).length ≤ 1)
    ∧ (∀ d : Int, (((runRate 1 2 (initRateState 1)
        [⟨0, 1⟩, ⟨30, 1⟩, ⟨61, 1⟩, ⟨200, 2⟩]).2.1).filter
        (fun g => g.day = d)).length ≤ 2) := by
  have h := rate_gate_limits 1 2 1 [⟨0, 1⟩, ⟨30, 1⟩, ⟨61, 1⟩, ⟨200, 2⟩]
    (by decide) (by decide) (by decide)
  exact ⟨by decide, by decide, h.1, h.2.1⟩

/-! ## C7: vision mode with at least one matched source -/

/-- C7 (bug demonstration): whenever the relevance search returns at least
one matched source, `generate_from_vision` raises `TypeError` at the
matched-sources construction (`r["source"]["source_id"]` subscripts a
non-subscriptable `BrainSource`), so the session is marked `failed` — not
`completed` — and no source's use count is touched (the store's sources
are returned unchanged). -/
theorem vision_match_marks_failed (db : BrainDB) (vision : String)
    (resp : Option JVal) (now maxSources : Nat) (minScore : ℚ)
    (m : BrainSourceR × ℚ × String) (ms : List (BrainSourceR × ℚ × String))
    (hm : searchSources db.sources vision maxSources minScore = m :: ms) :
    (generateFromVision db vision resp now maxSources minScore).2
        = Except.error brainSubscriptError
    ∧ (generateFromVision db vision resp now maxSources minScore).1.sources
        = db.sources
    ∧ (((generateFromVision db vision resp now maxSources minScore).1.sessions.map
        (·.status)).getLast?) = some "failed" := by
  unfold generateFromVision
  dsimp only
  rw [hm]
  refine ⟨rfl, rfl, ?_⟩
  unfold updateSessionStatus
  dsimp only
  rw [List.map_append, List.map_append]
  simp only [List.map_cons, List.map_nil]
  rw [List.getLast?_concat]
  simp

lemma searchSources_shopify :
    searchSources
      [{ source_id := "src_1", title := "shopify tips guide",
         content := "all the shopify tips you need" }]
      "shopify tips" 5 (1 / 2)
      = [({ source_id := "src_1", title := "shopify tips guide",
            content := "all the shopify tips you need" }, 7 / 10,
          "all the shopify tips you need")] := by
  have hscore : calculateRelevanceScore
      { source_id := "src_1", title := "shopify tips guide",
        content := "all the shopify tips you need" }
      (pyLower "shopify tips") (wordSet (pyLower "shopify tips")) = 7 / 10 := by
    unfold calculateRelevanceScore
    dsimp only
    have h1 : pyIn (pyLower "shopify tips") (pyLower "shopify tips guide") = true := by
      decide
    have h2 : pyIn (pyLower "shopify tips")
        (pyLower "all the shopify tips you need") = true := by
      decide
    rw [if_pos h1, if_pos h2]
    norm_num [min_def]
  unfold searchSources
  dsimp only
  rw [show List.take (5 * 3)
      [({ source_id := "src_1", title := "shopify tips guide",
          content := "all the shopify tips you need" } : BrainSourceR)]
      = [{ source_id := "src_1", title := "shopify tips guide",
           content := "all the shopify tips you need" }] from rfl]
  rw [List.filterMap_cons]
  dsimp only
  rw [hscore]
  rw [if_pos (by norm_num : (1 / 2 : ℚ) ≤ 7 / 10)]
  rfl

/-- Witness for C7's bug theorem: one stored source whose title and
content contain the vision text; the vision call errors, the session ends
`failed`, and the source's use count stays 0. -/
theorem vision_match_marks_failed_witness :
    (generateFromVision
      ⟨[{ source_id := "src_1", title := "shopify tips guide",
          content := "all the shopify tips you need" }], []⟩
      "shopify tips" none 7 5 (1 / 2)).2 = Except.error brainSubscriptError
    ∧ (generateFromVision
      ⟨[{ source_id := "src_1", title := "shopify tips guide",
          content := "all the shopify tips you need" }], []⟩
      "shopify tips" none 7 5 (1 / 2)).1.sources
        = [{ source_id := "src_1", title := "shopify tips guide",
             content := "all the shopify tips you need" }]
    ∧ (((generateFromVision
      ⟨[{ source_id := "src_1", title := "shopify tips guide",
          content := "all the shopify tips you need" }], []⟩
      "shopify tips" none 7 5 (1 / 2)).1.sessions.map (·.status)).getLast?)
        = some "failed" :=
  vision_match_marks_failed _ "shopify tips" none 7 5 (1 / 2) _ _
    searchSources_shopify
